import Mathlib

/- Verification of the go-structured-query core against its specification.

   The development shallowly embeds the parts of the repository the claims
   talk about:
   - the Fetch/FetchContext row-iteration protocol of UpdateQuery
     (src/unnamed/part_000, lines 291-404);
   - the serialization protocol: UpdateQuery.ToSQL / AppendSQL / NestThis
     (src/unnamed/part_000), Fields / FieldAssignment / Assignments
     (src/mysql/fields.go) and FunctionInfo (src/postgres/function_info.go).

   Helpers of the repository that are not part of the provided sources
   (Row, Column, ExitCode, appendSQLValue, expandValues, FieldInfo,
   questionToDollarPlaceholders, appendCTEs, the predicate and join-table
   renderers) are modelled from the specification; their doc comments say so
   explicitly. -/

namespace SQ

/-- GoPanic models a value raised by an abrupt non-local exit from a user
callback, as classified by the recover switch in FetchContext
(src/unnamed/part_000 lines 304-317): an ExitCode, a value implementing
error, or any other value (kept as its printed representation). -/
inductive GoPanic
  | exit (code : Nat)
  | err (msg : String)
  | other (val : String)
deriving DecidableEq

/-- Modelled from the spec: ExitPeacefully is the distinguished peaceful-stop
sentinel of the ExitCode enumeration (the "stop iterating, no error" signal of
section 4.4); its concrete numeric value is immaterial to the claims. -/
def ExitPeacefully : Nat := 0

/-- FEvent is one observable callback invocation of the fetch row loop:
a row-population invocation of the row mapper, or an accumulator invocation,
tagged with the 1-based rowcount at which it happened. The discovery
invocation of the mapper (before the query is issued) is not an FEvent. -/
inductive FEvent
  | mapRow (k : Nat)
  | accRow (k : Nat)
deriving DecidableEq

/-- FetchErr enumerates the error outcomes FetchContext can report that the
claims distinguish: the missing-mapper error, sql.ErrNoRows, a non-peaceful
ExitCode, a raised error value, and the generic wrapped error produced by
fmt.Errorf from any other raised value. -/
inductive FetchErr
  | noMapper
  | noRows
  | exitCode (code : Nat)
  | errVal (msg : String)
  | wrapped (val : String)
deriving DecidableEq

/-- FetchConfig is the environment of one FetchContext call: whether a row
mapper was supplied, how many scan destinations its discovery invocation
registers (len of Row.dest), how many rows the cursor produces, and the
abrupt-exit behaviour of the mapper and the accumulator at each rowcount
(none means the callback returns normally). The database connection itself is
external; the model assumes the query was issued successfully, and scan
errors (external type mismatches) are out of scope. -/
structure FetchConfig where
  hasMapper : Bool
  destCount : Nat
  numRows : Nat
  mapperPanic : Nat → Option GoPanic
  hasAcc : Bool
  accPanic : Nat → Option GoPanic

/-- FetchOutcome records what one FetchContext call did: the returned error
(none is a nil error), the ordered trace of row-loop callback invocations,
and whether the deferred rows.Close ran (it runs on every exit path once the
cursor was opened). -/
structure FetchOutcome where
  err : Option FetchErr
  events : List FEvent
  cursorClosed : Bool
deriving DecidableEq

/-- runLoop is the row-iteration loop of FetchContext (src/unnamed/part_000
lines 360-396): for each cursor row it increments rowcount, invokes the
mapper for row population, breaks if there is no accumulator, otherwise
invokes the accumulator, and a raised value from either callback aborts the
loop. It returns the event trace, the final rowcount and the raised value if
any. -/
def runLoop (mp : Nat → Option GoPanic) (hasAcc : Bool) (ap : Nat → Option GoPanic) :
    Nat → Nat → List FEvent → List FEvent × Nat × Option GoPanic
  | 0, rc, evs => (evs, rc, none)
  | n + 1, rc, evs =>
    let rc2 := rc + 1
    let evs2 := evs ++ [FEvent.mapRow rc2]
    match mp rc2 with
    | some p => (evs2, rc2, some p)
    | none =>
      if hasAcc then
        let evs3 := evs2 ++ [FEvent.accRow rc2]
        match ap rc2 with
        | some p => (evs3, rc2, some p)
        | none => runLoop mp hasAcc ap n rc2 evs3
      else (evs2, rc2, none)

/-- recoverErr is the recover switch of the deferred function in FetchContext
(src/unnamed/part_000 lines 304-317): ExitPeacefully leaves the nil error in
place, any other ExitCode becomes the error, a raised error value becomes the
error, and anything else becomes the generic wrapped error. -/
def recoverErr : GoPanic → Option FetchErr
  | .exit code => if code = ExitPeacefully then none else some (FetchErr.exitCode code)
  | .err msg => some (FetchErr.errVal msg)
  | .other val => some (FetchErr.wrapped val)

/-- loopOut runs the row loop of a FetchContext call from rowcount 0 with an
empty trace. -/
def loopOut (c : FetchConfig) : List FEvent × Nat × Option GoPanic :=
  runLoop c.mapperPanic c.hasAcc c.accPanic c.numRows 0 []

/-- FetchContext models UpdateQuery.FetchContext (src/unnamed/part_000 lines
291-404) after a successful query issue: the nil-mapper guard, the discovery
invocation registering destCount destinations, the early nil return when no
destination was registered, the row loop, the recover normalization of raised
values, and the zero-rows-without-accumulator sql.ErrNoRows report. The
deferred rows.Close runs on every path after the cursor was opened. -/
def FetchContext (c : FetchConfig) : FetchOutcome :=
  if c.hasMapper then
    if c.destCount = 0 then ⟨none, [], true⟩
    else
      let out := loopOut c
      match out.2.2 with
      | some p => ⟨recoverErr p, out.1, true⟩
      | none =>
        if out.2.1 = 0 ∧ c.hasAcc = false then ⟨some FetchErr.noRows, out.1, true⟩
        else ⟨none, out.1, true⟩
  else ⟨some FetchErr.noMapper, [], false⟩

/-- pairedEvents s n is the trace of a clean accumulator run over n rows
starting at rowcount s: mapper then accumulator, once per row, in row order. -/
def pairedEvents (s n : Nat) : List FEvent :=
  match n with
  | 0 => []
  | m + 1 => FEvent.mapRow s :: FEvent.accRow s :: pairedEvents (s + 1) m

/-- Witness for C1 at a concrete configuration: a single-row fetch whose
mapper raises the ExitPeacefully sentinel returns a nil error with the cursor
closed. -/
def cfgPanic : FetchConfig :=
  ⟨true, 1, 1, fun _ => some (GoPanic.exit ExitPeacefully), false, fun _ => none⟩

/-- Witness for C2 at a concrete configuration: a three-row fetch with a
clean mapper/accumulator pair produces the paired trace for rows 1, 2, 3. -/
def cfgClean : FetchConfig := ⟨true, 2, 3, fun _ => none, true, fun _ => none⟩

/-- Witness for C3 at a concrete configuration: a zero-row fetch without an
accumulator reports the not-found condition. -/
def cfgZero : FetchConfig := ⟨true, 1, 0, fun _ => none, false, fun _ => none⟩

/-- Witness for C10 at a concrete configuration: an empty mapper over an
empty result set with no accumulator still returns a nil error. -/
def cfgNoDest : FetchConfig := ⟨true, 0, 0, fun _ => none, false, fun _ => none⟩

/- Serialization model.

   The rendering buffer is modelled as a list of tokens rather than a raw
   string so that placeholder markers are distinguishable from identifier
   text; concatenating the tokens (with qmark printed as the question mark
   and dollar n printed as a dollar sign followed by n) yields the string the
   Go code writes into its strings.Builder. Identifiers and literal SQL text
   in this repository never contain a raw question-mark character, so the
   token-level placeholder rewrite coincides with the textual one. -/

/-- Lit is a Go literal value bound as a query argument (the interface value
appended to the args slice for one placeholder). -/
inductive Lit
  | int (n : Int)
  | str (s : String)
deriving DecidableEq

/-- Arg is one element of the rendered argument list: a bound literal value,
or, only in the ToSQL recover path, the raised value itself. -/
inductive Arg
  | val (l : Lit)
  | raised (p : GoPanic)
deriving DecidableEq

/-- Tok is one piece of rendered SQL text: plain text, the dialect-neutral
placeholder marker, or a numbered dollar placeholder produced by the
placeholder rewrite. -/
inductive Tok
  | str (s : String)
  | qmark
  | dollar (n : Nat)
deriving DecidableEq

/-- BaseTable is the data of a base table descriptor (the generated TableInfo
values): schema, name and optional alias. Its renderer and GetName/GetAlias
accessors are modelled from the spec (the descriptor type is external to the
provided sources); tests show it renders as schema.name. -/
structure BaseTable where
  schema : String
  name : String
  als : String
deriving DecidableEq

mutual

/-- Field is the closed set of field variants appearing in the provided
sources: FieldLiteral (src/mysql/fields.go), the column reference FieldInfo
(modelled from the spec: renders as table.name unless its qualifier is in the
exclusion set, with an optional alias), and FunctionInfo
(src/postgres/function_info.go) with its argument values. -/
inductive Field
  | literal (s : String)
  | col (table name als : String)
  | func (schema name als : String) (arguments : List Value)

/-- Value is a value position in a statement, dispatched by the value rule of
section 4.1 of the spec: a literal becomes one placeholder plus one argument,
a Field renders as its (possibly qualifier-excluded) name with no argument of
its own, and a nested Query renders parenthesized as a nested statement. -/
inductive Value
  | lit (l : Lit)
  | field (f : Field)
  | query (q : UpdateQuery)

/-- CTE is a named common table expression: a name bound to an underlying
query, rendered in the WITH prefix. -/
inductive CTE
  | mk (name : String) (q : UpdateQuery)

/-- Table is a FROM/JOIN source: a base table or a nested query used as a
derived table with its alias. -/
inductive Table
  | base (t : BaseTable)
  | query (q : UpdateQuery) (als : String)

/-- Assignment is the FieldAssignment of src/mysql/fields.go: a target field
and a value. -/
inductive Assignment
  | mk (field : Field) (value : Value)

/-- ColMapper is the observable behaviour of a column-mapper callback at its
discovery invocation: it either raises a value or produces the assignment
list registered on its Column cursor. -/
inductive ColMapper
  | panics (p : GoPanic)
  | returns (assignments : List Assignment)

/-- Predicate is a comparison predicate combining two value positions with an
operator keyword; modelled from the spec (the predicate primitives are
external to the provided sources and render as value op value). -/
inductive Predicate
  | cmp (lhs : Value) (op : String) (rhs : Value)

/-- JoinTable pairs a join keyword with an optional table and ON predicates,
as in section 4.2 of the spec and the join-table tests: an empty keyword
renders as JOIN, a nil table renders as NULL, and zero ON predicates omit the
ON keyword. -/
inductive JoinTable
  | mk (joinType : String) (table : Option Table) (onPredicates : List Predicate)

/-- UpdateQuery mirrors the UpdateQuery struct of src/unnamed/part_000: the
nested flag, CTEs, the update table, the SET assignments, the optional column
mapper, the FROM table, the join tables, the WHERE predicates (the variadic
top-level AND list) and the RETURNING fields (whose entries may be nil). The
DB, RowMapper, Accumulator and logging fields take no part in serialization
and live in the fetch model instead. -/
inductive UpdateQuery
  | mk (nested : Bool) (ctes : List CTE) (updateTable : Option BaseTable)
       (assignments : List Assignment) (columnMapper : Option ColMapper)
       (fromTable : Option Table) (joinTables : List JoinTable)
       (wherePredicates : List Predicate) (returningFields : List (Option Field))

end

/-- Projection of the nested flag. -/
def UpdateQuery.nested : UpdateQuery → Bool
  | .mk n _ _ _ _ _ _ _ _ => n

/-- Projection of the CTE list. -/
def UpdateQuery.ctes : UpdateQuery → List CTE
  | .mk _ cs _ _ _ _ _ _ _ => cs

/-- Projection of the update table. -/
def UpdateQuery.updateTable : UpdateQuery → Option BaseTable
  | .mk _ _ ut _ _ _ _ _ _ => ut

/-- Projection of the declarative SET assignments. -/
def UpdateQuery.assignments : UpdateQuery → List Assignment
  | .mk _ _ _ asgs _ _ _ _ _ => asgs

/-- Projection of the column mapper. -/
def UpdateQuery.columnMapper : UpdateQuery → Option ColMapper
  | .mk _ _ _ _ cm _ _ _ _ => cm

/-- Projection of the FROM table. -/
def UpdateQuery.fromTable : UpdateQuery → Option Table
  | .mk _ _ _ _ _ ft _ _ _ => ft

/-- Projection of the join tables. -/
def UpdateQuery.joinTables : UpdateQuery → List JoinTable
  | .mk _ _ _ _ _ _ jt _ _ => jt

/-- Projection of the WHERE predicates. -/
def UpdateQuery.wherePredicates : UpdateQuery → List Predicate
  | .mk _ _ _ _ _ _ _ wh _ => wh

/-- Projection of the RETURNING fields. -/
def UpdateQuery.returningFields : UpdateQuery → List (Option Field)
  | .mk _ _ _ _ _ _ _ _ rt => rt

/-- NestThis marks the UpdateQuery as nested and changes nothing else
(src/unnamed/part_000 lines 477-480). -/
def UpdateQuery.nestThis : UpdateQuery → UpdateQuery
  | .mk _ cs ut asgs cm ft jt wh rt => .mk true cs ut asgs cm ft jt wh rt

/-- Rendered is the result of one rendering step: the extended buffer and
argument list, or the value raised by a column-mapper callback reached during
rendering (which Go propagates as a non-local exit up to the ToSQL recover). -/
abbrev Rendered := Except GoPanic (List Tok × List Arg)

/-- andThen sequences two rendering steps, propagating a raised value. -/
def andThen (r : Rendered) (f : List Tok → List Arg → Rendered) : Rendered :=
  match r with
  | .error p => .error p
  | .ok (b, a) => f b a

/-- qcount counts the dialect-neutral placeholder markers in a buffer. -/
def qcount : List Tok → Nat
  | [] => 0
  | .qmark :: rest => qcount rest + 1
  | _ :: rest => qcount rest

/-- noDollars says a buffer holds no numbered placeholder yet (the state of
every buffer before the dialect placeholder rewrite). -/
def noDollars : List Tok → Bool
  | [] => true
  | .dollar _ :: _ => false
  | _ :: rest => noDollars rest

/-- Modelled from the spec: questionToDollarPlaceholders is the dialect
placeholder rewrite (the single post-pass of section 4.3), converting the
k-th neutral marker, counted left to right from k equal to the counter plus
one, into the numbered dollar placeholder. -/
def questionToDollarToks : List Tok → Nat → List Tok
  | [], _ => []
  | .qmark :: rest, k => .dollar (k + 1) :: questionToDollarToks rest (k + 1)
  | t :: rest, k => t :: questionToDollarToks rest k

/-- placeholderSeq lists the numbered placeholders of a rendered buffer in
textual order. -/
def placeholderSeq : List Tok → List Nat
  | [] => []
  | .dollar n :: rest => n :: placeholderSeq rest
  | _ :: rest => placeholderSeq rest

/-- Modelled from the spec: a base table descriptor renders as its
schema-qualified name (the tests show schema.name, for example
devlab.users). -/
def BaseTable.renderName (t : BaseTable) : String :=
  if t.schema = "" then t.name else t.schema ++ "." ++ t.name

/-- GetAlias of a field: FieldLiteral always answers the empty string
(src/mysql/fields.go lines 16-18); the column and function variants answer
their stored alias. -/
def Field.getAlias : Field → String
  | .literal _ => ""
  | .col _ _ als => als
  | .func _ _ als _ => als

/-- functionFormat builds the format string of FunctionInfo.AppendSQLExclude
(src/postgres/function_info.go lines 26-39): the optional schema prefix,
quoted when it holds a space or tab, then the name and a parenthesized
neutral-marker list with one marker per argument. -/
def functionFormat (schema name : String) (argCount : Nat) : String :=
  let pre : String :=
    if schema = "" then ""
    else if schema.contains ' ' || schema.contains '\t' then
      "\"" ++ schema ++ "\"."
    else schema ++ "."
  match argCount with
  | 0 => pre ++ name ++ "()"
  | n + 1 => pre ++ name ++ "(?" ++ String.join (List.replicate n ", ?") ++ ")"

/-- appendUpdateClause is the UPDATE clause block of UpdateQuery.AppendSQL
(src/unnamed/part_000 lines 70-84): it writes the UPDATE keyword, a nil table
renders as the literal NULL token and excludes nothing, and a present table
renders its qualified name, with its alias after AS when it has one, adding
that alias (otherwise the table name) to the exclusion set. -/
def appendUpdateClause (ut : Option BaseTable) (buf : List Tok) :
    List Tok × List String :=
  let buf1 := buf ++ [Tok.str "UPDATE "]
  match ut with
  | none => (buf1 ++ [Tok.str "NULL"], [])
  | some t =>
    let buf2 := buf1 ++ [Tok.str t.renderName]
    if t.als = "" then (buf2, [t.name])
    else (buf2 ++ [Tok.str " AS ", Tok.str t.als], [t.als])

mutual

/-- Modelled from the spec: appendSQLValue is the value-dispatch rule of
section 4.1 — a literal value becomes one neutral placeholder marker plus one
appended argument, a Field value renders through its qualifier-excluding
renderer with no argument of its own, and a Query value becomes a
parenthesized nested rendering. -/
def appendSQLValue (excl : List String) (v : Value) (buf : List Tok)
    (args : List Arg) : Rendered :=
  match v with
  | .lit l => Except.ok (buf ++ [Tok.qmark], args ++ [Arg.val l])
  | .field f => fieldAppendSQLExclude excl f buf args
  | .query sub =>
    andThen (appendSQLBody sub (buf ++ [Tok.str "("]) args) fun b a =>
      Except.ok (b ++ [Tok.str ")"], a)
termination_by (sizeOf v, 0)

/-- fieldAppendSQLExclude renders one field: FieldLiteral writes its
underlying string verbatim (src/mysql/fields.go lines 10-12); the column
variant is modelled from the spec — it renders table.name unless its
qualifier sits in the exclusion set (then just name); FunctionInfo builds its
format string and expands it over its arguments
(src/postgres/function_info.go lines 22-41). -/
def fieldAppendSQLExclude (excl : List String) (f : Field) (buf : List Tok)
    (args : List Arg) : Rendered :=
  match f with
  | .literal s => Except.ok (buf ++ [Tok.str s], args)
  | .col tbl nm _ =>
    if excl.contains tbl ∨ tbl = "" then Except.ok (buf ++ [Tok.str nm], args)
    else Except.ok (buf ++ [Tok.str (tbl ++ "." ++ nm)], args)
  | .func schema nm _ vals =>
    expandValues excl (functionFormat schema nm vals.length).toList vals buf args
termination_by (sizeOf f, 0)

/-- Modelled from the spec: expandValues walks a format string and replaces
each neutral marker character with the value dispatch of the next value,
copying every other character verbatim. A marker with no value left cannot
arise from functionFormat and is copied as text. -/
def expandValues (excl : List String) (format : List Char) (vals : List Value)
    (buf : List Tok) (args : List Arg) : Rendered :=
  match format with
  | [] => Except.ok (buf, args)
  | ch :: rest =>
    if ch = '?' then
      match vals with
      | [] => expandValues excl rest [] (buf ++ [Tok.str (String.singleton ch)]) args
      | v :: vs =>
        andThen (appendSQLValue excl v buf args) fun b a =>
          expandValues excl rest vs b a
    else
      expandValues excl rest vals (buf ++ [Tok.str (String.singleton ch)]) args
termination_by (sizeOf vals, format.length)

/-- fieldsAppendSQLExclude is Fields.AppendSQLExclude (src/mysql/fields.go
lines 30-41): comma-separated fields, a nil entry rendering as the literal
NULL token. The isFirst flag stands for the i greater than zero test of the
source loop. -/
def fieldsAppendSQLExclude (excl : List String) (fs : List (Option Field))
    (isFirst : Bool) (buf : List Tok) (args : List Arg) : Rendered :=
  match fs with
  | [] => Except.ok (buf, args)
  | of :: rest =>
    let buf2 := if isFirst then buf else buf ++ [Tok.str ", "]
    match of with
    | none => fieldsAppendSQLExclude excl rest false (buf2 ++ [Tok.str "NULL"]) args
    | some f =>
      andThen (fieldAppendSQLExclude excl f buf2 args) fun b a =>
        fieldsAppendSQLExclude excl rest false b a
termination_by (sizeOf fs, 0)

/-- fieldsAppendSQLExcludeWithAlias is Fields.AppendSQLExcludeWithAlias
(src/mysql/fields.go lines 46-62): like fieldsAppendSQLExclude but each
present field with a non-empty alias is followed by AS and the alias. -/
def fieldsAppendSQLExcludeWithAlias (excl : List String) (fs : List (Option Field))
    (isFirst : Bool) (buf : List Tok) (args : List Arg) : Rendered :=
  match fs with
  | [] => Except.ok (buf, args)
  | of :: rest =>
    let buf2 := if isFirst then buf else buf ++ [Tok.str ", "]
    match of with
    | none => fieldsAppendSQLExcludeWithAlias excl rest false (buf2 ++ [Tok.str "NULL"]) args
    | some f =>
      andThen (fieldAppendSQLExclude excl f buf2 args) fun b a =>
        fieldsAppendSQLExcludeWithAlias excl rest false
          (if f.getAlias = "" then b else b ++ [Tok.str " AS ", Tok.str f.getAlias]) a
termination_by (sizeOf fs, 0)

/-- assignmentAppendSQLExclude is FieldAssignment.AppendSQLExclude
(src/mysql/fields.go lines 74-78): the target field through the value
dispatch, an equals sign, then the value through the value dispatch. -/
def assignmentAppendSQLExclude (excl : List String) (a : Assignment)
    (buf : List Tok) (args : List Arg) : Rendered :=
  match a with
  | .mk f v =>
    andThen (fieldAppendSQLExclude excl f buf args) fun b a2 =>
      appendSQLValue excl v (b ++ [Tok.str " = "]) a2
termination_by (sizeOf a, 0)

/-- assignmentsAppendSQLExclude is Assignments.AppendSQLExclude
(src/mysql/fields.go lines 88-95): comma-separated assignments, the
exclusion set propagated to each. -/
def assignmentsAppendSQLExclude (excl : List String) (asgs : List Assignment)
    (isFirst : Bool) (buf : List Tok) (args : List Arg) : Rendered :=
  match asgs with
  | [] => Except.ok (buf, args)
  | a :: rest =>
    let buf2 := if isFirst then buf else buf ++ [Tok.str ", "]
    andThen (assignmentAppendSQLExclude excl a buf2 args) fun b a2 =>
      assignmentsAppendSQLExclude excl rest false b a2
termination_by (sizeOf asgs, 0)

/-- Modelled from the spec: a comparison predicate renders as its left value,
the operator keyword between spaces, then its right value, every part through
the value dispatch. -/
def predicateAppendSQLExclude (excl : List String) (p : Predicate)
    (buf : List Tok) (args : List Arg) : Rendered :=
  match p with
  | .cmp lhs op rhs =>
    andThen (appendSQLValue excl lhs buf args) fun b a =>
      appendSQLValue excl rhs (b ++ [Tok.str (" " ++ op ++ " ")]) a
termination_by (sizeOf p, 0)

/-- Modelled from the spec: a top-level variadic predicate list renders its
members joined by the AND keyword, never wrapped in outer parentheses
(section 4.1; UpdateQuery sets the toplevel flag before rendering WHERE). -/
def predicatesAppendAnd (excl : List String) (ps : List Predicate)
    (isFirst : Bool) (buf : List Tok) (args : List Arg) : Rendered :=
  match ps with
  | [] => Except.ok (buf, args)
  | p :: rest =>
    let buf2 := if isFirst then buf else buf ++ [Tok.str " AND "]
    andThen (predicateAppendSQLExclude excl p buf2 args) fun b a =>
      predicatesAppendAnd excl rest false b a
termination_by (sizeOf ps, 0)

/-- Modelled from the spec and the join-table tests: a join table renders its
keyword (an empty keyword renders as JOIN), a space, its table — NULL when
nil, a parenthesized nested rendering plus alias when a query, the qualified
name plus alias otherwise — and its ON predicates joined by AND when there
are any, the ON keyword omitted when there are none. -/
def joinTableAppendSQL (j : JoinTable) (buf : List Tok) (args : List Arg) : Rendered :=
  match j with
  | .mk jtype tbl preds =>
    let kw := if jtype = "" then "JOIN" else jtype
    let buf1 := buf ++ [Tok.str kw, Tok.str " "]
    andThen
      (match tbl with
       | none => Except.ok (buf1 ++ [Tok.str "NULL"], args)
       | some (Table.base t) =>
         Except.ok ((buf1 ++ [Tok.str t.renderName]) ++
           (if t.als = "" then [] else [Tok.str " AS ", Tok.str t.als]), args)
       | some (Table.query sub al) =>
         andThen (appendSQLBody sub (buf1 ++ [Tok.str "("]) args) fun b a =>
           Except.ok ((b ++ [Tok.str ")"]) ++
             (if al = "" then [] else [Tok.str " AS ", Tok.str al]), a))
      fun b a =>
        if preds.isEmpty then Except.ok (b, a)
        else predicatesAppendAnd [] preds true (b ++ [Tok.str " ON "]) a
termination_by (sizeOf j, 0)

/-- Modelled from the spec: JoinTables renders as an ordered space-joined
sequence of join tables (section 4.2). -/
def joinTablesAppendSQL (js : List JoinTable) (isFirst : Bool) (buf : List Tok)
    (args : List Arg) : Rendered :=
  match js with
  | [] => Except.ok (buf, args)
  | j :: rest =>
    let buf2 := if isFirst then buf else buf ++ [Tok.str " "]
    andThen (joinTableAppendSQL j buf2 args) fun b a =>
      joinTablesAppendSQL rest false b a
termination_by (sizeOf js, 0)

/-- Modelled from the spec: one CTE of the WITH prefix renders as its name,
AS, and its parenthesized body rendered as a nested statement. -/
def cteAppendSQL (c : CTE) (buf : List Tok) (args : List Arg) : Rendered :=
  match c with
  | .mk name q =>
    andThen (appendSQLBody q (buf ++ [Tok.str name, Tok.str " AS ("]) args) fun b a =>
      Except.ok (b ++ [Tok.str ")"], a)

/-- Modelled from the spec: the CTE list of the WITH prefix renders
comma-joined in declaration order. -/
def ctesAppendList (cs : List CTE) (isFirst : Bool) (buf : List Tok)
    (args : List Arg) : Rendered :=
  match cs with
  | [] => Except.ok (buf, args)
  | c :: rest =>
    let buf2 := if isFirst then buf else buf ++ [Tok.str ", "]
    andThen (cteAppendSQL c buf2 args) fun b a =>
      ctesAppendList rest false b a
termination_by (sizeOf cs, 0)

/-- clausesTail renders the FROM, JOIN, WHERE and RETURNING clauses of
UpdateQuery.AppendSQL (src/unnamed/part_000 lines 90-122): the FROM table
(parenthesizing a query used as a derived table, with its alias after AS),
the join tables, the WHERE predicates and the RETURNING fields with aliases;
a clause with zero elements is omitted entirely. The first two parameters
only pad the termination measure. -/
def clausesTail (_pt : Option BaseTable) (_pa : List Assignment)
    (ft : Option Table) (jt : List JoinTable) (wh : List Predicate)
    (rt : List (Option Field)) (buf : List Tok) (args : List Arg) : Rendered :=
  andThen
    (match ft with
     | none => Except.ok (buf, args)
     | some (Table.base t) =>
       Except.ok ((buf ++ [Tok.str " FROM ", Tok.str t.renderName]) ++
         (if t.als = "" then [] else [Tok.str " AS ", Tok.str t.als]), args)
     | some (Table.query sub al) =>
       andThen (appendSQLBody sub (buf ++ [Tok.str " FROM ("]) args) fun b3 a3 =>
         Except.ok ((b3 ++ [Tok.str ")"]) ++
           (if al = "" then [] else [Tok.str " AS ", Tok.str al]), a3))
    fun b4 a4 =>
  andThen
    (if jt.isEmpty then Except.ok (b4, a4)
     else joinTablesAppendSQL jt true (b4 ++ [Tok.str " "]) a4)
    fun b5 a5 =>
  andThen
    (if wh.isEmpty then Except.ok (b5, a5)
     else predicatesAppendAnd [] wh true (b5 ++ [Tok.str " WHERE "]) a5)
    fun b6 a6 =>
  if rt.isEmpty then Except.ok (b6, a6)
  else fieldsAppendSQLExcludeWithAlias [] rt true (b6 ++ [Tok.str " RETURNING "]) a6
termination_by (sizeOf _pt + sizeOf _pa + sizeOf ft + sizeOf jt + sizeOf wh + sizeOf rt + 1, 0)

/-- clausesCore renders the clause sequence of UpdateQuery.AppendSQL
(src/unnamed/part_000 lines 70-122) from its resolved parts: the UPDATE
clause computing the exclusion set (lines 70-84), the SET clause under that
exclusion when there are assignments (lines 85-89), then the remaining
clauses through clausesTail. -/
def clausesCore (ut : Option BaseTable) (asgs : List Assignment)
    (ft : Option Table) (jt : List JoinTable) (wh : List Predicate)
    (rt : List (Option Field)) (buf : List Tok) (args : List Arg) : Rendered :=
  let up := appendUpdateClause ut buf
  andThen
    (if asgs.isEmpty then Except.ok (up.1, args)
     else assignmentsAppendSQLExclude up.2 asgs true (up.1 ++ [Tok.str " SET "]) args)
    fun b2 a2 => clausesTail ut asgs ft jt wh rt b2 a2
termination_by (sizeOf ut + sizeOf asgs + sizeOf ft + sizeOf jt + sizeOf wh + sizeOf rt + 1, 1)

/-- appendSQLBody is the rendering a nested statement performs: the
column-mapper discovery invocation replacing the assignments (or raising),
then the clause sequence — exactly UpdateQuery.AppendSQL with the WITH-prefix
and the placeholder-rewrite blocks skipped (their guards test the nested
flag, src/unnamed/part_000 lines 66-68 and 123-126). -/
def appendSQLBody (q : UpdateQuery) (buf : List Tok) (args : List Arg) : Rendered :=
  match q with
  | .mk _ _ ut asgs cm ft jt wh rt =>
    match cm with
    | some (ColMapper.panics p) => Except.error p
    | some (ColMapper.returns asgs2) => clausesCore ut asgs2 ft jt wh rt buf args
    | none => clausesCore ut asgs ft jt wh rt buf args
termination_by (sizeOf q, 2)

end

/-- Modelled from the spec: appendCTEs renders the WITH prefix of a
non-nested statement — nothing for an empty CTE list, otherwise the WITH
keyword, the comma-joined CTE list in declaration order, and a trailing
space before the main clause. The spec also says a statement's WITH list is
the union of nested statements' CTE lists with its own; that harvesting
(the FromTable and JoinTables arguments of the Go appendCTEs) is not
modelled, as no claim depends on it. -/
def appendCTEs (cs : List CTE) (buf : List Tok) (args : List Arg) : Rendered :=
  match cs with
  | [] => Except.ok (buf, args)
  | _ =>
    andThen (ctesAppendList cs true (buf ++ [Tok.str "WITH "]) args) fun b a =>
      Except.ok (b ++ [Tok.str " "], a)

/-- appendSQLAux is the guarded frame of UpdateQuery.AppendSQL around the
clause sequence, after the column mapper has been resolved: the WITH prefix
is rendered only when the statement is not nested (src/unnamed/part_000
lines 66-68), and the dialect placeholder rewrite runs over the whole buffer
only when the statement is not nested (lines 123-126). -/
def appendSQLAux (nested : Bool) (cs : List CTE) (ut : Option BaseTable)
    (asgsR : List Assignment) (ft : Option Table) (jt : List JoinTable)
    (wh : List Predicate) (rt : List (Option Field)) (buf : List Tok)
    (args : List Arg) : Rendered :=
  andThen (if nested then Except.ok (buf, args) else appendCTEs cs buf args) fun b1 a1 =>
    andThen (clausesCore ut asgsR ft jt wh rt b1 a1) fun b2 a2 =>
      Except.ok (if nested then (b2, a2) else (questionToDollarToks b2 0, a2))

/-- appendSQL is UpdateQuery.AppendSQL (src/unnamed/part_000 lines 58-146):
the column-mapper discovery invocation replaces the assignments, a raised
value propagates out (lines 60-64), and the guarded frame renders the rest.
The logging block is elided: it only writes to the logging sink. -/
def UpdateQuery.appendSQL (q : UpdateQuery) (buf : List Tok) (args : List Arg) : Rendered :=
  match q with
  | .mk nested cs ut asgs cm ft jt wh rt =>
    match cm with
    | some (ColMapper.panics p) => Except.error p
    | some (ColMapper.returns asgs2) => appendSQLAux nested cs ut asgs2 ft jt wh rt buf args
    | none => appendSQLAux nested cs ut asgs ft jt wh rt buf args

/-- toSQL is UpdateQuery.ToSQL (src/unnamed/part_000 lines 42-52): it renders
from an empty buffer and argument list; a raised value is recovered, leaving
the empty query string and an argument list holding exactly the raised
value. -/
def UpdateQuery.toSQL (q : UpdateQuery) : List Tok × List Arg :=
  match q.appendSQL [] [] with
  | Except.ok (b, a) => (b, a)
  | Except.error p => ([], [Arg.raised p])

/-- Emitted says a rendering step, when it succeeds, only appended to the
buffer and argument list, keeping one neutral marker per appended argument
and emitting no numbered placeholder. -/
def Emitted (buf : List Tok) (args : List Arg) (r : Rendered) : Prop :=
  ∀ b a, r = Except.ok (b, a) →
    ∃ d e, b = buf ++ d ∧ a = args ++ e ∧ qcount d = e.length ∧ noDollars d = true

/-- Witness for C4 at a concrete statement with two literal values in its
WHERE clause: the rendered text carries the numbered placeholders one and
two in textual order and the argument list has the two literals in the same
order. -/
def qLits : UpdateQuery :=
  UpdateQuery.mk false [] none [] none none []
    [Predicate.cmp (Value.lit (Lit.int 1)) "=" (Value.lit (Lit.int 2))] []

/-- Witness for C5 at a concrete statement carrying one CTE: the nested
rendering equals the bare clause rendering, and the non-nested rendering
opens with the WITH keyword. -/
def qInner : UpdateQuery := UpdateQuery.mk false [] none [] none none [] [] []

def qCte : UpdateQuery :=
  UpdateQuery.mk false [CTE.mk "c0" qInner] none [] none none [] [] []

/-- Witness for C6 at a concrete statement whose column mapper raises an
error value. -/
def qPanic : UpdateQuery :=
  UpdateQuery.mk false [] none []
    (some (ColMapper.panics (GoPanic.err "email cannot be empty"))) none [] [] []

/-- Witness for C7 at a concrete table without alias: the exclusion set is
the table name alone; a column of another table keeps its qualifier. -/
def tUsers : BaseTable := ⟨"", "users", ""⟩

/-- Witness for C8 at the empty UpdateQuery: it renders as UPDATE NULL. -/
def qEmpty : UpdateQuery := UpdateQuery.mk false [] none [] none none [] [] []

/-- StatefulMapper models the Go column-mapper callback at the precision the
render-twice question needs: the callback is a closure that may capture
external mutable state of type sigma outside the statement value; one
discovery invocation reads that state, may update it, and yields the
observable ColMapper effect of that particular call. -/
structure StatefulMapper (σ : Type) where
  run : σ → σ × ColMapper

/-- withMapper installs into the column-mapper slot the effect one discovery
invocation produced (or clears the slot), leaving every other field
unchanged. -/
def UpdateQuery.withMapper : UpdateQuery → Option ColMapper → UpdateQuery
  | .mk n cs ut asgs _ ft jt wh rt, cm => .mk n cs ut asgs cm ft jt wh rt

/-- stateAfter is the captured state after one discovery invocation of the
column-mapper closure: unchanged when the statement has no mapper. -/
def stateAfter {σ : Type} (m : Option (StatefulMapper σ)) (s : σ) : σ :=
  match m with
  | none => s
  | some sm => (sm.run s).1

/-- mapEffect is the observable effect of one discovery invocation of the
column-mapper closure at the given captured state (none when the statement
has no mapper). -/
def mapEffect {σ : Type} (m : Option (StatefulMapper σ)) (s : σ) : Option ColMapper :=
  match m with
  | none => none
  | some sm => some ((sm.run s).2)

/-- toSQLStateful is ToSQL of a statement whose column-mapper field holds a
closure over external captured state: UpdateQuery.AppendSQL runs the callback
anew on every rendering (src/unnamed/part_000 lines 60-64), so each call
first performs the discovery invocation — updating the captured state and
fixing this call's ColMapper effect — and then renders purely as toSQL over
the statement value and that effect. -/
def toSQLStateful {σ : Type} (q : UpdateQuery) (m : Option (StatefulMapper σ))
    (s : σ) : σ × (List Tok × List Arg) :=
  (stateAfter m s, (q.withMapper (mapEffect m s)).toSQL)

/-- Fixtures for C9: a bare statement carcass and two SET assignments that
differ only in the target name. -/
def qPlain : UpdateQuery := UpdateQuery.mk false [] none [] none none [] [] []

def asgA : Assignment :=
  Assignment.mk (Field.literal "a") (Value.field (Field.literal "b"))

def asgC : Assignment :=
  Assignment.mk (Field.literal "c") (Value.field (Field.literal "b"))

/-- A stateful column-mapper closure over one captured boolean: its first
invocation registers the assignment to a and flips the flag, every later
invocation registers the assignment to c. The Go callback type admits
exactly such closures. -/
def smFlip : StatefulMapper Bool :=
  ⟨fun s => (true, if s then ColMapper.returns [asgC] else ColMapper.returns [asgA])⟩

/-- A stateful column-mapper closure that mutates its captured boolean on
every invocation yet registers the same assignment each time: its discovery
effect is invocation-stable even though its state is not. -/
def smSpin : StatefulMapper Bool :=
  ⟨fun s => (!s, ColMapper.returns [asgA])⟩

/-- The two successive ToSQL calls of the C9 counterexample: the second call
starts from the captured state the first call left behind, while the
statement value itself is unmodified between the calls. -/
def c9run1 : Bool × (List Tok × List Arg) := toSQLStateful qPlain (some smFlip) false

def c9run2 : Bool × (List Tok × List Arg) := toSQLStateful qPlain (some smFlip) c9run1.1

/-- runLoop with an accumulator and callbacks that never raise walks all the
rows, producing the mapper/accumulator pair trace in row order. -/
theorem runLoop_clean (mp ap : Nat → Option GoPanic) (hmp : ∀ k, mp k = none)
    (hap : ∀ k, ap k = none) :
    ∀ (n rc : Nat) (evs : List FEvent),
      runLoop mp true ap n rc evs = (evs ++ pairedEvents (rc + 1) n, rc + n, none) := by
  intro n
  induction n with
  | zero => intro rc evs; simp [runLoop, pairedEvents]
  | succ m ih =>
    intro rc evs
    simp only [runLoop, hmp, hap, if_true]
    rw [ih]
    refine Prod.ext ?_ (Prod.ext ?_ rfl)
    · simp [pairedEvents]
    · simp; omega

/-- FetchContext reports exactly the trace produced by the row loop whenever
the loop is reached (a mapper is present and at least one destination was
bound). -/
theorem fetch_events_eq_loop (c : FetchConfig) (hm : c.hasMapper = true)
    (hd : c.destCount ≠ 0) : (FetchContext c).events = (loopOut c).1 := by
  simp only [FetchContext, hm, if_true, if_neg hd]
  cases h : (loopOut c).2.2 with
  | none => simp only [h]; split <;> rfl
  | some p => simp only [h]

/-- C1: an abrupt exit raised from inside the mapper or accumulator during
row iteration of a fetch halts iteration (the reported trace is exactly the
loop's trace, which the raise truncated) and is normalized three ways by the
recover switch of FetchContext: the ExitPeacefully sentinel yields a nil
error, any other ExitCode is returned as the error, a raised error value is
returned as the error, and any other raised value becomes the generic
wrapped error; in every case the deferred cursor close still runs. -/
theorem fetch_panic_three_way (c : FetchConfig) (p : GoPanic)
    (hm : c.hasMapper = true) (hd : c.destCount ≠ 0)
    (hp : (loopOut c).2.2 = some p) :
    (FetchContext c).cursorClosed = true ∧
    (FetchContext c).events = (loopOut c).1 ∧
    (p = GoPanic.exit ExitPeacefully → (FetchContext c).err = none) ∧
    (∀ code, p = GoPanic.exit code → code ≠ ExitPeacefully →
        (FetchContext c).err = some (FetchErr.exitCode code)) ∧
    (∀ msg, p = GoPanic.err msg → (FetchContext c).err = some (FetchErr.errVal msg)) ∧
    (∀ val, p = GoPanic.other val → (FetchContext c).err = some (FetchErr.wrapped val)) := by
  have hFC : FetchContext c = ⟨recoverErr p, (loopOut c).1, true⟩ := by
    simp only [FetchContext, hm, if_true, if_neg hd, hp]
  rw [hFC]
  refine ⟨rfl, rfl, ?_, ?_, ?_, ?_⟩
  · intro h; subst h; simp [recoverErr]
  · intro code h hne; subst h; simp [recoverErr, hne]
  · intro msg h; subst h; simp [recoverErr]
  · intro val h; subst h; simp [recoverErr]

theorem fetch_panic_three_way_witness :
    cfgPanic.hasMapper = true ∧ cfgPanic.destCount ≠ 0 ∧
    (loopOut cfgPanic).2.2 = some (GoPanic.exit ExitPeacefully) ∧
    (FetchContext cfgPanic).err = none ∧ (FetchContext cfgPanic).cursorClosed = true :=
  ⟨rfl, by decide, rfl,
   (fetch_panic_three_way cfgPanic (GoPanic.exit ExitPeacefully) rfl (by decide) rfl).2.2.1 rfl,
   (fetch_panic_three_way cfgPanic (GoPanic.exit ExitPeacefully) rfl (by decide) rfl).1⟩

/-- C2: in a fetch whose mapper bound at least one destination, the mapper is
invoked for row population exactly once and iteration stops after the first
row when no accumulator was supplied, and with an accumulator the mapper and
then the accumulator are invoked exactly once per result row, in row order. -/
theorem fetch_invocation_discipline (c : FetchConfig)
    (hm : c.hasMapper = true) (hd : c.destCount ≠ 0) :
    (c.hasAcc = false → 1 ≤ c.numRows → (FetchContext c).events = [FEvent.mapRow 1]) ∧
    (c.hasAcc = true → (∀ k, c.mapperPanic k = none) → (∀ k, c.accPanic k = none) →
      (FetchContext c).events = pairedEvents 1 c.numRows) := by
  constructor
  · intro hacc hrows
    rw [fetch_events_eq_loop c hm hd]
    obtain ⟨m, hmrows⟩ : ∃ m, c.numRows = m + 1 := ⟨c.numRows - 1, by omega⟩
    simp only [loopOut, hmrows, runLoop, hacc]
    cases h : c.mapperPanic (0 + 1) <;> simp [h]
  · intro hacc hmp hap
    rw [fetch_events_eq_loop c hm hd]
    simp only [loopOut, hacc, runLoop_clean c.mapperPanic c.accPanic hmp hap]
    simp

theorem fetch_invocation_discipline_witness :
    cfgClean.hasMapper = true ∧ cfgClean.destCount ≠ 0 ∧ cfgClean.hasAcc = true ∧
    (FetchContext cfgClean).events = pairedEvents 1 3 :=
  ⟨rfl, by decide, rfl,
   (fetch_invocation_discipline cfgClean rfl (by decide)).2 rfl (fun _ => rfl) (fun _ => rfl)⟩

/-- C3: a fetch over zero result rows reports the distinguished not-found
condition when no accumulator was supplied, and with an accumulator it
returns a nil error having never invoked the accumulator; the cursor is
closed either way. -/
theorem fetch_zero_rows (c : FetchConfig)
    (hm : c.hasMapper = true) (hd : c.destCount ≠ 0) (hz : c.numRows = 0) :
    (FetchContext c).cursorClosed = true ∧
    (c.hasAcc = false → (FetchContext c).err = some FetchErr.noRows) ∧
    (c.hasAcc = true → (FetchContext c).err = none ∧ (FetchContext c).events = []) := by
  have hlo : loopOut c = ([], 0, none) := by
    simp [loopOut, hz, runLoop]
  refine ⟨?_, ?_, ?_⟩
  · simp only [FetchContext, hm, if_true, if_neg hd, hlo]
    split <;> rfl
  · intro hacc
    simp [FetchContext, hm, hd, hlo, hacc]
  · intro hacc
    simp [FetchContext, hm, hd, hlo, hacc]

theorem fetch_zero_rows_witness :
    cfgZero.hasMapper = true ∧ cfgZero.destCount ≠ 0 ∧ cfgZero.numRows = 0 ∧
    (FetchContext cfgZero).err = some FetchErr.noRows :=
  ⟨rfl, by decide, rfl, (fetch_zero_rows cfgZero rfl (by decide) rfl).2.1 rfl⟩

/-- C10: when the discovery invocation registers zero scan destinations,
FetchContext returns a nil error right after issuing the query: no row is
iterated, no accumulator runs, the not-found condition is never reported, and
the cursor is closed. -/
theorem fetch_no_dest_early_nil (c : FetchConfig)
    (hm : c.hasMapper = true) (hd : c.destCount = 0) :
    (FetchContext c).err = none ∧ (FetchContext c).events = [] ∧
    (FetchContext c).cursorClosed = true ∧
    (FetchContext c).err ≠ some FetchErr.noRows := by
  simp [FetchContext, hm, hd]

theorem fetch_no_dest_early_nil_witness :
    cfgNoDest.hasMapper = true ∧ cfgNoDest.destCount = 0 ∧ cfgNoDest.hasAcc = false ∧
    cfgNoDest.numRows = 0 ∧ (FetchContext cfgNoDest).err = none :=
  ⟨rfl, rfl, rfl, rfl, (fetch_no_dest_early_nil cfgNoDest rfl rfl).1⟩

/- Invariant infrastructure: every renderer only appends to the buffer and
   the argument list, appends exactly one neutral placeholder marker per
   appended argument, and never emits a numbered placeholder. -/

theorem qcount_append (xs ys : List Tok) :
    qcount (xs ++ ys) = qcount xs + qcount ys := by
  induction xs with
  | nil => simp [qcount]
  | cons t rest ih =>
    cases t with
    | str s => simp [qcount, ih]
    | qmark => simp [qcount, ih]; omega
    | dollar n => simp [qcount, ih]

theorem noDollars_append (xs ys : List Tok) :
    noDollars (xs ++ ys) = (noDollars xs && noDollars ys) := by
  induction xs with
  | nil => simp [noDollars]
  | cons t rest ih => cases t <;> simp [noDollars, ih]

theorem qcount_qtd (xs : List Tok) : ∀ k, qcount (questionToDollarToks xs k) = 0 := by
  induction xs with
  | nil => intro k; simp [questionToDollarToks, qcount]
  | cons t rest ih => intro k; cases t <;> simp [questionToDollarToks, qcount, ih]

theorem qtd_str_cons (s : String) (rest : List Tok) (k : Nat) :
    questionToDollarToks (Tok.str s :: rest) k = Tok.str s :: questionToDollarToks rest k := by
  simp [questionToDollarToks]

theorem placeholderSeq_qtd (xs : List Tok) :
    ∀ k, noDollars xs = true →
      placeholderSeq (questionToDollarToks xs k) = List.range' (k + 1) (qcount xs) := by
  induction xs with
  | nil => intro k _; simp [questionToDollarToks, placeholderSeq, qcount]
  | cons t rest ih =>
    intro k hnd
    cases t with
    | str s =>
      have hnd2 : noDollars rest = true := by simpa [noDollars] using hnd
      simp [questionToDollarToks, placeholderSeq, qcount, ih (k := k) hnd2]
    | qmark =>
      have hnd2 : noDollars rest = true := by simpa [noDollars] using hnd
      simp only [questionToDollarToks, placeholderSeq, qcount, ih (k := k + 1) hnd2]
      rw [List.range'_succ]
    | dollar n => simp [noDollars] at hnd

theorem emitted_error (buf : List Tok) (args : List Arg) (p : GoPanic) :
    Emitted buf args (Except.error p) := by
  intro b a hok
  simp at hok

theorem emitted_okE (buf : List Tok) (args : List Arg) (b : List Tok) (a : List Arg)
    (d : List Tok) (e : List Arg) (hb : b = buf ++ d) (ha : a = args ++ e)
    (hq : qcount d = e.length) (hnd : noDollars d = true) :
    Emitted buf args (Except.ok (b, a)) := by
  intro b2 a2 hok
  simp only [Except.ok.injEq, Prod.mk.injEq] at hok
  exact ⟨d, e, hok.1 ▸ hb, hok.2 ▸ ha, hq, hnd⟩

theorem emitted_refl (buf : List Tok) (args : List Arg) :
    Emitted buf args (Except.ok (buf, args)) :=
  emitted_okE buf args buf args [] [] (by simp) (by simp) (by simp [qcount]) (by simp [noDollars])

theorem emitted_push (buf : List Tok) (args : List Arg) (d : List Tok)
    (hq : qcount d = 0) (hnd : noDollars d = true) :
    Emitted buf args (Except.ok (buf ++ d, args)) :=
  emitted_okE buf args (buf ++ d) args d [] rfl (by simp) (by simp [hq]) hnd

theorem emitted_andThen (buf : List Tok) (args : List Arg) (r : Rendered)
    (f : List Tok → List Arg → Rendered) (h1 : Emitted buf args r)
    (h2 : ∀ b a, r = Except.ok (b, a) → Emitted b a (f b a)) :
    Emitted buf args (andThen r f) := by
  intro b2 a2 hok
  cases hr : r with
  | error p => rw [hr] at hok; simp [andThen] at hok
  | ok pair =>
    obtain ⟨b1, a1⟩ := pair
    obtain ⟨d1, e1, hb1, ha1, hq1, hd1⟩ := h1 b1 a1 hr
    have hok2 : f b1 a1 = Except.ok (b2, a2) := by
      rw [hr] at hok; simpa [andThen] using hok
    obtain ⟨d2, e2, hb2, ha2, hq2, hd2⟩ := h2 b1 a1 hr b2 a2 hok2
    refine ⟨d1 ++ d2, e1 ++ e2, ?_, ?_, ?_, ?_⟩
    · rw [hb2, hb1, List.append_assoc]
    · rw [ha2, ha1, List.append_assoc]
    · rw [qcount_append, hq1, hq2, List.length_append]
    · rw [noDollars_append, hd1, hd2]; rfl

theorem emitted_rebase (buf : List Tok) (args : List Arg) (base : List Tok)
    (r : Rendered) (d : List Tok) (hbase : base = buf ++ d) (hq : qcount d = 0)
    (hnd : noDollars d = true) (h : Emitted base args r) : Emitted buf args r := by
  intro b a hok
  obtain ⟨d2, e2, hb2, ha2, hq2, hd2⟩ := h b a hok
  refine ⟨d ++ d2, e2, ?_, ha2, ?_, ?_⟩
  · rw [hb2, hbase, List.append_assoc]
  · rw [qcount_append, hq, hq2]; simp
  · rw [noDollars_append, hnd, hd2]; rfl

theorem appendUpdateClause_extends (ut : Option BaseTable) (buf : List Tok) :
    ∃ ts, (appendUpdateClause ut buf).1 = buf ++ ts ∧ qcount ts = 0 ∧
      noDollars ts = true := by
  cases ut with
  | none =>
    exact ⟨[Tok.str "UPDATE ", Tok.str "NULL"], by simp [appendUpdateClause],
      by simp [qcount], by simp [noDollars]⟩
  | some t =>
    by_cases h : t.als = ""
    · exact ⟨[Tok.str "UPDATE ", Tok.str t.renderName],
        by simp [appendUpdateClause, h], by simp [qcount], by simp [noDollars]⟩
    · exact ⟨[Tok.str "UPDATE ", Tok.str t.renderName, Tok.str " AS ", Tok.str t.als],
        by simp [appendUpdateClause, h], by simp [qcount], by simp [noDollars]⟩

set_option maxHeartbeats 1000000

mutual

theorem emitted_value (excl : List String) (v : Value) (buf : List Tok)
    (args : List Arg) : Emitted buf args (appendSQLValue excl v buf args) := by
  cases v with
  | lit l =>
    simp only [appendSQLValue]
    exact emitted_okE buf args _ _ [Tok.qmark] [Arg.val l] rfl rfl
      (by simp [qcount]) (by simp [noDollars])
  | field f =>
    simp only [appendSQLValue]
    exact emitted_field excl f buf args
  | query sub =>
    simp only [appendSQLValue]
    refine emitted_andThen buf args _ _ ?_ ?_
    · exact emitted_rebase buf args _ _ [Tok.str "("] rfl (by simp [qcount])
        (by simp [noDollars]) (emitted_body sub (buf ++ [Tok.str "("]) args)
    · intro b a _
      exact emitted_push b a [Tok.str ")"] (by simp [qcount]) (by simp [noDollars])
termination_by (sizeOf v, 0)

theorem emitted_field (excl : List String) (f : Field) (buf : List Tok)
    (args : List Arg) : Emitted buf args (fieldAppendSQLExclude excl f buf args) := by
  cases f with
  | literal s =>
    simp only [fieldAppendSQLExclude]
    exact emitted_push buf args [Tok.str s] (by simp [qcount]) (by simp [noDollars])
  | col tbl nm als =>
    simp only [fieldAppendSQLExclude]
    split
    · exact emitted_push buf args [Tok.str nm] (by simp [qcount]) (by simp [noDollars])
    · exact emitted_push buf args [Tok.str (tbl ++ "." ++ nm)] (by simp [qcount])
        (by simp [noDollars])
  | func schema nm als vals =>
    simp only [fieldAppendSQLExclude]
    exact emitted_expand excl (functionFormat schema nm vals.length).toList vals buf args
termination_by (sizeOf f, 0)

theorem emitted_expand (excl : List String) (format : List Char) (vals : List Value)
    (buf : List Tok) (args : List Arg) :
    Emitted buf args (expandValues excl format vals buf args) := by
  cases format with
  | nil =>
    simp only [expandValues]
    exact emitted_refl buf args
  | cons ch rest =>
    cases vals with
    | nil =>
      simp only [expandValues, ite_self]
      exact emitted_rebase buf args _ _ [Tok.str (String.singleton ch)] rfl
        (by simp [qcount]) (by simp [noDollars])
        (emitted_expand excl rest [] (buf ++ [Tok.str (String.singleton ch)]) args)
    | cons v vs =>
      simp only [expandValues]
      split
      · refine emitted_andThen buf args _ _ (emitted_value excl v buf args) ?_
        intro b a _
        exact emitted_expand excl rest vs b a
      · exact emitted_rebase buf args _ _ [Tok.str (String.singleton ch)] rfl
          (by simp [qcount]) (by simp [noDollars])
          (emitted_expand excl rest (v :: vs) (buf ++ [Tok.str (String.singleton ch)]) args)
termination_by (sizeOf vals, format.length)

theorem emitted_fieldsWithAlias (excl : List String) (fs : List (Option Field))
    (isFirst : Bool) (buf : List Tok) (args : List Arg) :
    Emitted buf args (fieldsAppendSQLExcludeWithAlias excl fs isFirst buf args) := by
  cases fs with
  | nil =>
    simp only [fieldsAppendSQLExcludeWithAlias]
    exact emitted_refl buf args
  | cons of rest =>
    have hsep : ∃ ds, (if isFirst then buf else buf ++ [Tok.str ", "]) = buf ++ ds ∧
        qcount ds = 0 ∧ noDollars ds = true := by
      cases isFirst
      · exact ⟨[Tok.str ", "], by simp, by simp [qcount], by simp [noDollars]⟩
      · exact ⟨[], by simp, by simp [qcount], by simp [noDollars]⟩
    obtain ⟨ds, hds, hdq, hdn⟩ := hsep
    cases of with
    | none =>
      simp only [fieldsAppendSQLExcludeWithAlias]
      rw [hds]
      exact emitted_rebase buf args _ _ (ds ++ [Tok.str "NULL"])
        (by rw [List.append_assoc]) (by simp [qcount_append, hdq, qcount])
        (by simp [noDollars_append, hdn, noDollars])
        (emitted_fieldsWithAlias excl rest false (buf ++ ds ++ [Tok.str "NULL"]) args)
    | some f =>
      simp only [fieldsAppendSQLExcludeWithAlias]
      rw [hds]
      refine emitted_andThen buf args _ _ ?_ ?_
      · exact emitted_rebase buf args _ _ ds rfl hdq hdn
          (emitted_field excl f (buf ++ ds) args)
      · intro b a _
        by_cases hal : f.getAlias = ""
        · simp only [hal, if_pos rfl]
          exact emitted_fieldsWithAlias excl rest false b a
        · simp only [if_neg hal]
          exact emitted_rebase b a _ _ [Tok.str " AS ", Tok.str f.getAlias] rfl
            (by simp [qcount]) (by simp [noDollars])
            (emitted_fieldsWithAlias excl rest false
              (b ++ [Tok.str " AS ", Tok.str f.getAlias]) a)
termination_by (sizeOf fs, 0)

theorem emitted_assignment (excl : List String) (asg : Assignment) (buf : List Tok)
    (args : List Arg) : Emitted buf args (assignmentAppendSQLExclude excl asg buf args) := by
  cases asg with
  | mk f v =>
    simp only [assignmentAppendSQLExclude]
    refine emitted_andThen buf args _ _ (emitted_field excl f buf args) ?_
    intro b a _
    exact emitted_rebase b a _ _ [Tok.str " = "] rfl (by simp [qcount])
      (by simp [noDollars]) (emitted_value excl v (b ++ [Tok.str " = "]) a)
termination_by (sizeOf asg, 0)

theorem emitted_assignments (excl : List String) (asgs : List Assignment)
    (isFirst : Bool) (buf : List Tok) (args : List Arg) :
    Emitted buf args (assignmentsAppendSQLExclude excl asgs isFirst buf args) := by
  cases asgs with
  | nil =>
    simp only [assignmentsAppendSQLExclude]
    exact emitted_refl buf args
  | cons a rest =>
    simp only [assignmentsAppendSQLExclude]
    have hsep : ∃ ds, (if isFirst then buf else buf ++ [Tok.str ", "]) = buf ++ ds ∧
        qcount ds = 0 ∧ noDollars ds = true := by
      cases isFirst
      · exact ⟨[Tok.str ", "], by simp, by simp [qcount], by simp [noDollars]⟩
      · exact ⟨[], by simp, by simp [qcount], by simp [noDollars]⟩
    obtain ⟨ds, hds, hdq, hdn⟩ := hsep
    rw [hds]
    refine emitted_andThen buf args _ _ ?_ ?_
    · exact emitted_rebase buf args _ _ ds rfl hdq hdn
        (emitted_assignment excl a (buf ++ ds) args)
    · intro b a2 _
      exact emitted_assignments excl rest false b a2
termination_by (sizeOf asgs, 0)

theorem emitted_predicate (excl : List String) (p : Predicate) (buf : List Tok)
    (args : List Arg) : Emitted buf args (predicateAppendSQLExclude excl p buf args) := by
  cases p with
  | cmp lhs op rhs =>
    simp only [predicateAppendSQLExclude]
    refine emitted_andThen buf args _ _ (emitted_value excl lhs buf args) ?_
    intro b a _
    exact emitted_rebase b a _ _ [Tok.str (" " ++ op ++ " ")] rfl (by simp [qcount])
      (by simp [noDollars])
      (emitted_value excl rhs (b ++ [Tok.str (" " ++ op ++ " ")]) a)
termination_by (sizeOf p, 0)

theorem emitted_predicates (excl : List String) (ps : List Predicate)
    (isFirst : Bool) (buf : List Tok) (args : List Arg) :
    Emitted buf args (predicatesAppendAnd excl ps isFirst buf args) := by
  cases ps with
  | nil =>
    simp only [predicatesAppendAnd]
    exact emitted_refl buf args
  | cons p rest =>
    simp only [predicatesAppendAnd]
    have hsep : ∃ ds, (if isFirst then buf else buf ++ [Tok.str " AND "]) = buf ++ ds ∧
        qcount ds = 0 ∧ noDollars ds = true := by
      cases isFirst
      · exact ⟨[Tok.str " AND "], by simp, by simp [qcount], by simp [noDollars]⟩
      · exact ⟨[], by simp, by simp [qcount], by simp [noDollars]⟩
    obtain ⟨ds, hds, hdq, hdn⟩ := hsep
    rw [hds]
    refine emitted_andThen buf args _ _ ?_ ?_
    · exact emitted_rebase buf args _ _ ds rfl hdq hdn
        (emitted_predicate excl p (buf ++ ds) args)
    · intro b a _
      exact emitted_predicates excl rest false b a
termination_by (sizeOf ps, 0)

theorem emitted_joinTable (j : JoinTable) (buf : List Tok) (args : List Arg) :
    Emitted buf args (joinTableAppendSQL j buf args) := by
  cases j with
  | mk jtype tbl preds =>
    cases tbl with
    | none =>
      simp only [joinTableAppendSQL]
      refine emitted_andThen buf args _ _ ?_ ?_
      · exact emitted_okE buf args _ _
          [Tok.str (if jtype = "" then "JOIN" else jtype), Tok.str " ", Tok.str "NULL"] []
          (by simp) (by simp) (by simp [qcount]) (by simp [noDollars])
      · intro b a _
        split
        · exact emitted_refl b a
        · exact emitted_rebase b a _ _ [Tok.str " ON "] rfl (by simp [qcount])
            (by simp [noDollars])
            (emitted_predicates [] preds true (b ++ [Tok.str " ON "]) a)
    | some tb =>
      cases tb with
      | base t =>
        simp only [joinTableAppendSQL]
        refine emitted_andThen buf args _ _ ?_ ?_
        · refine emitted_okE buf args _ _
            ([Tok.str (if jtype = "" then "JOIN" else jtype), Tok.str " ",
              Tok.str t.renderName] ++
              (if t.als = "" then [] else [Tok.str " AS ", Tok.str t.als])) []
            (by simp) (by simp) ?_ ?_
          · by_cases h : t.als = "" <;> simp [h, qcount_append, qcount]
          · by_cases h : t.als = "" <;> simp [h, noDollars_append, noDollars]
        · intro b a _
          split
          · exact emitted_refl b a
          · exact emitted_rebase b a _ _ [Tok.str " ON "] rfl (by simp [qcount])
              (by simp [noDollars])
              (emitted_predicates [] preds true (b ++ [Tok.str " ON "]) a)
      | query sub al =>
        simp only [joinTableAppendSQL]
        refine emitted_andThen buf args _ _ ?_ ?_
        · refine emitted_andThen buf args _ _ ?_ ?_
          · exact emitted_rebase buf args _ _
              [Tok.str (if jtype = "" then "JOIN" else jtype), Tok.str " ", Tok.str "("]
              (by simp) (by simp [qcount]) (by simp [noDollars])
              (emitted_body sub
                (buf ++ [Tok.str (if jtype = "" then "JOIN" else jtype), Tok.str " "] ++
                  [Tok.str "("]) args)
          · intro b a _
            refine emitted_okE b a _ _
              ([Tok.str ")"] ++ (if al = "" then [] else [Tok.str " AS ", Tok.str al])) []
              (by simp) (by simp) ?_ ?_
            · by_cases h : al = "" <;> simp [h, qcount_append, qcount]
            · by_cases h : al = "" <;> simp [h, noDollars_append, noDollars]
        · intro b a _
          split
          · exact emitted_refl b a
          · exact emitted_rebase b a _ _ [Tok.str " ON "] rfl (by simp [qcount])
              (by simp [noDollars])
              (emitted_predicates [] preds true (b ++ [Tok.str " ON "]) a)
termination_by (sizeOf j, 0)

theorem emitted_joinTables (js : List JoinTable) (isFirst : Bool) (buf : List Tok)
    (args : List Arg) : Emitted buf args (joinTablesAppendSQL js isFirst buf args) := by
  cases js with
  | nil =>
    simp only [joinTablesAppendSQL]
    exact emitted_refl buf args
  | cons j rest =>
    simp only [joinTablesAppendSQL]
    have hsep : ∃ ds, (if isFirst then buf else buf ++ [Tok.str " "]) = buf ++ ds ∧
        qcount ds = 0 ∧ noDollars ds = true := by
      cases isFirst
      · exact ⟨[Tok.str " "], by simp, by simp [qcount], by simp [noDollars]⟩
      · exact ⟨[], by simp, by simp [qcount], by simp [noDollars]⟩
    obtain ⟨ds, hds, hdq, hdn⟩ := hsep
    rw [hds]
    refine emitted_andThen buf args _ _ ?_ ?_
    · exact emitted_rebase buf args _ _ ds rfl hdq hdn
        (emitted_joinTable j (buf ++ ds) args)
    · intro b a _
      exact emitted_joinTables rest false b a
termination_by (sizeOf js, 0)

theorem emitted_clausesTail (pt : Option BaseTable) (pa : List Assignment)
    (ft : Option Table) (jt : List JoinTable) (wh : List Predicate)
    (rt : List (Option Field)) (buf : List Tok) (args : List Arg) :
    Emitted buf args (clausesTail pt pa ft jt wh rt buf args) := by
  have tail3 : ∀ (b4 : List Tok) (a4 : List Arg),
      Emitted b4 a4
        (andThen
          (if jt.isEmpty then Except.ok (b4, a4)
           else joinTablesAppendSQL jt true (b4 ++ [Tok.str " "]) a4)
          fun b5 a5 =>
            andThen
              (if wh.isEmpty then Except.ok (b5, a5)
               else predicatesAppendAnd [] wh true (b5 ++ [Tok.str " WHERE "]) a5)
              fun b6 a6 =>
                if rt.isEmpty then Except.ok (b6, a6)
                else fieldsAppendSQLExcludeWithAlias [] rt true
                  (b6 ++ [Tok.str " RETURNING "]) a6) := by
    intro b4 a4
    refine emitted_andThen b4 a4 _ _ ?_ ?_
    · split
      · exact emitted_refl b4 a4
      · exact emitted_rebase b4 a4 _ _ [Tok.str " "] rfl (by simp [qcount])
          (by simp [noDollars]) (emitted_joinTables jt true (b4 ++ [Tok.str " "]) a4)
    · intro b5 a5 _
      refine emitted_andThen b5 a5 _ _ ?_ ?_
      · split
        · exact emitted_refl b5 a5
        · exact emitted_rebase b5 a5 _ _ [Tok.str " WHERE "] rfl (by simp [qcount])
            (by simp [noDollars])
            (emitted_predicates [] wh true (b5 ++ [Tok.str " WHERE "]) a5)
      · intro b6 a6 _
        split
        · exact emitted_refl b6 a6
        · exact emitted_rebase b6 a6 _ _ [Tok.str " RETURNING "] rfl (by simp [qcount])
            (by simp [noDollars])
            (emitted_fieldsWithAlias [] rt true (b6 ++ [Tok.str " RETURNING "]) a6)
  cases ft with
  | none =>
    simp only [clausesTail]
    refine emitted_andThen buf args _ _ (emitted_refl buf args) ?_
    intro b4 a4 _
    exact tail3 b4 a4
  | some tb =>
    cases tb with
    | base t =>
      simp only [clausesTail]
      refine emitted_andThen buf args _ _ ?_ ?_
      · refine emitted_okE buf args _ _
          ([Tok.str " FROM ", Tok.str t.renderName] ++
            (if t.als = "" then [] else [Tok.str " AS ", Tok.str t.als])) []
          (by simp) (by simp) ?_ ?_
        · by_cases h : t.als = "" <;> simp [h, qcount_append, qcount]
        · by_cases h : t.als = "" <;> simp [h, noDollars_append, noDollars]
      · intro b4 a4 _
        exact tail3 b4 a4
    | query sub al =>
      simp only [clausesTail]
      refine emitted_andThen buf args _ _ ?_ ?_
      · refine emitted_andThen buf args _ _ ?_ ?_
        · exact emitted_rebase buf args _ _ [Tok.str " FROM ("] rfl (by simp [qcount])
            (by simp [noDollars]) (emitted_body sub (buf ++ [Tok.str " FROM ("]) args)
        · intro b3 a3 _
          refine emitted_okE b3 a3 _ _
            ([Tok.str ")"] ++ (if al = "" then [] else [Tok.str " AS ", Tok.str al])) []
            (by simp) (by simp) ?_ ?_
          · by_cases h : al = "" <;> simp [h, qcount_append, qcount]
          · by_cases h : al = "" <;> simp [h, noDollars_append, noDollars]
      · intro b4 a4 _
        exact tail3 b4 a4
termination_by (sizeOf pt + sizeOf pa + sizeOf ft + sizeOf jt + sizeOf wh + sizeOf rt + 1, 0)

theorem emitted_clausesCore (ut : Option BaseTable) (asgs : List Assignment)
    (ft : Option Table) (jt : List JoinTable) (wh : List Predicate)
    (rt : List (Option Field)) (buf : List Tok) (args : List Arg) :
    Emitted buf args (clausesCore ut asgs ft jt wh rt buf args) := by
  obtain ⟨ts, hts, htq, htn⟩ := appendUpdateClause_extends ut buf
  simp only [clausesCore]
  refine emitted_andThen buf args _ _ ?_ ?_
  · split
    · exact emitted_okE buf args _ _ ts [] hts (by simp) (by simp [htq]) htn
    · exact emitted_rebase buf args _ _ (ts ++ [Tok.str " SET "])
        (by rw [hts, List.append_assoc]) (by simp [qcount_append, htq, qcount])
        (by simp [noDollars_append, htn, noDollars])
        (emitted_assignments (appendUpdateClause ut buf).2 asgs true
          ((appendUpdateClause ut buf).1 ++ [Tok.str " SET "]) args)
  · intro b2 a2 _
    exact emitted_clausesTail ut asgs ft jt wh rt b2 a2
termination_by (sizeOf ut + sizeOf asgs + sizeOf ft + sizeOf jt + sizeOf wh + sizeOf rt + 1, 1)

theorem emitted_body (q : UpdateQuery) (buf : List Tok) (args : List Arg) :
    Emitted buf args (appendSQLBody q buf args) := by
  cases q with
  | mk n cs ut asgs cm ft jt wh rt =>
    cases cm with
    | none =>
      simp only [appendSQLBody]
      exact emitted_clausesCore ut asgs ft jt wh rt buf args
    | some m =>
      cases m with
      | panics p =>
        simp only [appendSQLBody]
        exact emitted_error buf args p
      | returns asgs2 =>
        simp only [appendSQLBody]
        exact emitted_clausesCore ut asgs2 ft jt wh rt buf args
termination_by (sizeOf q, 2)

end

set_option maxHeartbeats 200000

theorem andThen_ok_elim (r : Rendered) (f : List Tok → List Arg → Rendered)
    (b : List Tok) (a : List Arg) (h : andThen r f = Except.ok (b, a)) :
    ∃ b1 a1, r = Except.ok (b1, a1) ∧ f b1 a1 = Except.ok (b, a) := by
  cases hr : r with
  | error p => rw [hr] at h; simp [andThen] at h
  | ok pair =>
    obtain ⟨b1, a1⟩ := pair
    exact ⟨b1, a1, rfl, by rw [hr] at h; simpa [andThen] using h⟩

theorem andThen_ok_eta (r : Rendered) :
    andThen r (fun b a => Except.ok (b, a)) = r := by
  cases r with
  | error p => rfl
  | ok pair => cases pair; rfl

theorem andThen_ok (b : List Tok) (a : List Arg) (f : List Tok → List Arg → Rendered) :
    andThen (Except.ok (b, a)) f = f b a := rfl

theorem appendSQLAux_true (cs : List CTE) (ut : Option BaseTable)
    (asgsR : List Assignment) (ft : Option Table) (jt : List JoinTable)
    (wh : List Predicate) (rt : List (Option Field)) (buf : List Tok)
    (args : List Arg) :
    appendSQLAux true cs ut asgsR ft jt wh rt buf args =
      clausesCore ut asgsR ft jt wh rt buf args := by
  simp only [appendSQLAux]
  rw [if_true, andThen_ok]
  have h2 : (fun (b2 : List Tok) (a2 : List Arg) =>
      (Except.ok (if True then (b2, a2) else (questionToDollarToks b2 0, a2)) :
        Rendered)) = fun b2 a2 => Except.ok (b2, a2) := by
    funext b2 a2
    rw [if_true]
  rw [h2, andThen_ok_eta]

theorem emitted_fields (excl : List String) (fs : List (Option Field)) :
    ∀ (isFirst : Bool) (buf : List Tok) (args : List Arg),
      Emitted buf args (fieldsAppendSQLExclude excl fs isFirst buf args) := by
  induction fs with
  | nil =>
    intro isFirst buf args
    simp only [fieldsAppendSQLExclude]
    exact emitted_refl buf args
  | cons of rest ih =>
    intro isFirst buf args
    have hsep : ∃ ds, (if isFirst then buf else buf ++ [Tok.str ", "]) = buf ++ ds ∧
        qcount ds = 0 ∧ noDollars ds = true := by
      cases isFirst
      · exact ⟨[Tok.str ", "], by simp, by simp [qcount], by simp [noDollars]⟩
      · exact ⟨[], by simp, by simp [qcount], by simp [noDollars]⟩
    obtain ⟨ds, hds, hdq, hdn⟩ := hsep
    cases of with
    | none =>
      simp only [fieldsAppendSQLExclude]
      rw [hds]
      exact emitted_rebase buf args _ _ (ds ++ [Tok.str "NULL"])
        (by rw [List.append_assoc]) (by simp [qcount_append, hdq, qcount])
        (by simp [noDollars_append, hdn, noDollars])
        (ih false (buf ++ ds ++ [Tok.str "NULL"]) args)
    | some f =>
      simp only [fieldsAppendSQLExclude]
      rw [hds]
      refine emitted_andThen buf args _ _ ?_ ?_
      · exact emitted_rebase buf args _ _ ds rfl hdq hdn
          (emitted_field excl f (buf ++ ds) args)
      · intro b a _
        exact ih false b a

theorem emitted_cte (c : CTE) (buf : List Tok) (args : List Arg) :
    Emitted buf args (cteAppendSQL c buf args) := by
  cases c with
  | mk name q =>
    simp only [cteAppendSQL]
    refine emitted_andThen buf args _ _ ?_ ?_
    · exact emitted_rebase buf args _ _ [Tok.str name, Tok.str " AS ("] rfl
        (by simp [qcount]) (by simp [noDollars])
        (emitted_body q (buf ++ [Tok.str name, Tok.str " AS ("]) args)
    · intro b a _
      exact emitted_push b a [Tok.str ")"] (by simp [qcount]) (by simp [noDollars])

theorem emitted_ctesList (cs : List CTE) :
    ∀ (isFirst : Bool) (buf : List Tok) (args : List Arg),
      Emitted buf args (ctesAppendList cs isFirst buf args) := by
  induction cs with
  | nil =>
    intro isFirst buf args
    simp only [ctesAppendList]
    exact emitted_refl buf args
  | cons c rest ih =>
    intro isFirst buf args
    have hsep : ∃ ds, (if isFirst then buf else buf ++ [Tok.str ", "]) = buf ++ ds ∧
        qcount ds = 0 ∧ noDollars ds = true := by
      cases isFirst
      · exact ⟨[Tok.str ", "], by simp, by simp [qcount], by simp [noDollars]⟩
      · exact ⟨[], by simp, by simp [qcount], by simp [noDollars]⟩
    obtain ⟨ds, hds, hdq, hdn⟩ := hsep
    simp only [ctesAppendList]
    rw [hds]
    refine emitted_andThen buf args _ _ ?_ ?_
    · exact emitted_rebase buf args _ _ ds rfl hdq hdn
        (emitted_cte c (buf ++ ds) args)
    · intro b a _
      exact ih false b a

theorem emitted_appendCTEs (cs : List CTE) (buf : List Tok) (args : List Arg) :
    Emitted buf args (appendCTEs cs buf args) := by
  cases cs with
  | nil =>
    simp only [appendCTEs]
    exact emitted_refl buf args
  | cons c rest =>
    simp only [appendCTEs]
    refine emitted_andThen buf args _ _ ?_ ?_
    · exact emitted_rebase buf args _ _ [Tok.str "WITH "] rfl (by simp [qcount])
        (by simp [noDollars])
        (emitted_ctesList (c :: rest) true (buf ++ [Tok.str "WITH "]) args)
    · intro b a _
      exact emitted_push b a [Tok.str " "] (by simp [qcount]) (by simp [noDollars])

theorem appendUpdateClause_head (ut : Option BaseTable) (buf : List Tok) :
    ∃ ts, (appendUpdateClause ut buf).1 = buf ++ (Tok.str "UPDATE " :: ts) := by
  cases ut with
  | none => exact ⟨[Tok.str "NULL"], by simp [appendUpdateClause]⟩
  | some t =>
    by_cases h : t.als = ""
    · exact ⟨[Tok.str t.renderName], by simp [appendUpdateClause, h]⟩
    · exact ⟨[Tok.str t.renderName, Tok.str " AS ", Tok.str t.als],
        by simp [appendUpdateClause, h]⟩

theorem clausesCore_head (ut : Option BaseTable) (asgs : List Assignment)
    (ft : Option Table) (jt : List JoinTable) (wh : List Predicate)
    (rt : List (Option Field)) (buf : List Tok) (args : List Arg)
    (b : List Tok) (a : List Arg)
    (h : clausesCore ut asgs ft jt wh rt buf args = Except.ok (b, a)) :
    ∃ rest, b = (appendUpdateClause ut buf).1 ++ rest := by
  simp only [clausesCore] at h
  obtain ⟨b2, a2, h1, h2⟩ := andThen_ok_elim _ _ _ _ h
  obtain ⟨d2, e2, hb2, ha2, hq2, hd2⟩ :=
    emitted_clausesTail ut asgs ft jt wh rt b2 a2 b a h2
  have hb2x : ∃ r0, b2 = (appendUpdateClause ut buf).1 ++ r0 := by
    split at h1
    · simp only [Except.ok.injEq, Prod.mk.injEq] at h1
      exact ⟨[], by simp [h1.1]⟩
    · obtain ⟨d1, e1, hb1, ha1, hq1, hd1⟩ :=
        emitted_assignments (appendUpdateClause ut buf).2 asgs true
          ((appendUpdateClause ut buf).1 ++ [Tok.str " SET "]) args b2 a2 h1
      exact ⟨[Tok.str " SET "] ++ d1, by rw [hb1, List.append_assoc]⟩
  obtain ⟨r0, hr0⟩ := hb2x
  exact ⟨r0 ++ d2, by rw [hb2, hr0, List.append_assoc]⟩

theorem appendSQLBody_head (q : UpdateQuery) (buf : List Tok) (args : List Arg)
    (b : List Tok) (a : List Arg) (h : appendSQLBody q buf args = Except.ok (b, a)) :
    ∃ rest, b = buf ++ (Tok.str "UPDATE " :: rest) := by
  cases q with
  | mk n cs ut asgs cm ft jt wh rt =>
    obtain ⟨ts, hts⟩ := appendUpdateClause_head ut buf
    cases cm with
    | none =>
      simp only [appendSQLBody] at h
      obtain ⟨rest, hrest⟩ := clausesCore_head ut asgs ft jt wh rt buf args b a h
      exact ⟨ts ++ rest, by rw [hrest, hts]; simp⟩
    | some m =>
      cases m with
      | panics p => simp only [appendSQLBody] at h; exact absurd h (by simp)
      | returns asgs2 =>
        simp only [appendSQLBody] at h
        obtain ⟨rest, hrest⟩ := clausesCore_head ut asgs2 ft jt wh rt buf args b a h
        exact ⟨ts ++ rest, by rw [hrest, hts]; simp⟩

theorem appendSQLAux_false_parts (cs : List CTE) (ut : Option BaseTable)
    (asgsR : List Assignment) (ft : Option Table) (jt : List JoinTable)
    (wh : List Predicate) (rt : List (Option Field)) (buf : List Tok)
    (args : List Arg) (b : List Tok) (a : List Arg)
    (h : appendSQLAux false cs ut asgsR ft jt wh rt buf args = Except.ok (b, a)) :
    ∃ b1 a1 b2, appendCTEs cs buf args = Except.ok (b1, a1) ∧
      clausesCore ut asgsR ft jt wh rt b1 a1 = Except.ok (b2, a) ∧
      b = questionToDollarToks b2 0 := by
  simp only [appendSQLAux] at h
  obtain ⟨b1, a1, h1, h2⟩ := andThen_ok_elim _ _ _ _ h
  obtain ⟨b2, a2, h3, h4⟩ := andThen_ok_elim _ _ _ _ h2
  simp only [Bool.false_eq_true, if_false] at h1
  simp only [Bool.false_eq_true, if_false, Except.ok.injEq, Prod.mk.injEq] at h4
  exact ⟨b1, a1, b2, h1, by rw [h3, h4.2], h4.1.symm⟩

/-- C4: for a non-nested statement, serialization produces an argument list
whose length equals the number of placeholder markers, and the numbered
placeholders of the rendered text read one to K in left-to-right textual
order, so the i-th argument binds the i-th placeholder; a literal value
contributes exactly one marker plus one argument, a column field contributes
no argument, and a nested query value contributes only marker-argument
balanced output of its own. -/
theorem args_match_placeholders (q : UpdateQuery) (b : List Tok) (a : List Arg)
    (hn : q.nested = false) (h : q.appendSQL [] [] = Except.ok (b, a)) :
    (placeholderSeq b = List.range' 1 a.length ∧ qcount b = 0) ∧
    (∀ excl l buf args, appendSQLValue excl (Value.lit l) buf args =
       Except.ok (buf ++ [Tok.qmark], args ++ [Arg.val l])) ∧
    (∀ excl tbl nm als buf args b2 a2,
       fieldAppendSQLExclude excl (Field.col tbl nm als) buf args =
         Except.ok (b2, a2) → a2 = args) ∧
    (∀ excl sub buf args b2 a2,
       appendSQLValue excl (Value.query sub) buf args = Except.ok (b2, a2) →
       ∃ d e, b2 = buf ++ d ∧ a2 = args ++ e ∧ qcount d = e.length) := by
  have main : placeholderSeq b = List.range' 1 a.length ∧ qcount b = 0 := by
    cases q with
    | mk n cs ut asgs cm ft jt wh rt =>
      simp only [UpdateQuery.nested] at hn
      subst hn
      cases cm with
      | some m =>
        cases m with
        | panics p => simp only [UpdateQuery.appendSQL] at h; exact absurd h (by simp)
        | returns asgs2 =>
          simp only [UpdateQuery.appendSQL] at h
          obtain ⟨b1, a1, b2, h1, h2, hb⟩ :=
            appendSQLAux_false_parts cs ut asgs2 ft jt wh rt [] [] b a h
          obtain ⟨d1, e1, hb1, ha1, hq1, hd1⟩ := emitted_appendCTEs cs [] [] b1 a1 h1
          obtain ⟨d2, e2, hb2, ha2, hq2, hd2⟩ :=
            emitted_clausesCore ut asgs2 ft jt wh rt b1 a1 b2 a h2
          have hbal : qcount b2 = a.length := by
            rw [hb2, hb1, ha2, ha1]
            simp [qcount_append, hq1, hq2]
          have hnd : noDollars b2 = true := by
            rw [hb2, hb1]
            simp [noDollars_append, hd1, hd2]
          rw [hb]
          exact ⟨by rw [placeholderSeq_qtd b2 0 hnd, hbal], qcount_qtd b2 0⟩
      | none =>
        simp only [UpdateQuery.appendSQL] at h
        obtain ⟨b1, a1, b2, h1, h2, hb⟩ :=
          appendSQLAux_false_parts cs ut asgs ft jt wh rt [] [] b a h
        obtain ⟨d1, e1, hb1, ha1, hq1, hd1⟩ := emitted_appendCTEs cs [] [] b1 a1 h1
        obtain ⟨d2, e2, hb2, ha2, hq2, hd2⟩ :=
          emitted_clausesCore ut asgs ft jt wh rt b1 a1 b2 a h2
        have hbal : qcount b2 = a.length := by
          rw [hb2, hb1, ha2, ha1]
          simp [qcount_append, hq1, hq2]
        have hnd : noDollars b2 = true := by
          rw [hb2, hb1]
          simp [noDollars_append, hd1, hd2]
        rw [hb]
        exact ⟨by rw [placeholderSeq_qtd b2 0 hnd, hbal], qcount_qtd b2 0⟩
  refine ⟨main, ?_, ?_, ?_⟩
  · intro excl l buf args
    simp [appendSQLValue]
  · intro excl tbl nm als buf args b2 a2 hh
    simp only [fieldAppendSQLExclude] at hh
    split at hh <;>
      (simp only [Except.ok.injEq, Prod.mk.injEq] at hh; exact hh.2.symm)
  · intro excl sub buf args b2 a2 hh
    obtain ⟨d, e, hbd, hae, hq, _⟩ :=
      emitted_value excl (Value.query sub) buf args b2 a2 hh
    exact ⟨d, e, hbd, hae, hq⟩

theorem args_match_placeholders_witness :
    qLits.nested = false ∧
    qLits.appendSQL [] [] = Except.ok
      ([Tok.str "UPDATE ", Tok.str "NULL", Tok.str " WHERE ", Tok.dollar 1,
        Tok.str " = ", Tok.dollar 2],
       [Arg.val (Lit.int 1), Arg.val (Lit.int 2)]) ∧
    placeholderSeq
      [Tok.str "UPDATE ", Tok.str "NULL", Tok.str " WHERE ", Tok.dollar 1,
        Tok.str " = ", Tok.dollar 2] =
      List.range' 1 ([Arg.val (Lit.int 1), Arg.val (Lit.int 2)] : List Arg).length := by
  have h : qLits.appendSQL [] [] = Except.ok
      ([Tok.str "UPDATE ", Tok.str "NULL", Tok.str " WHERE ", Tok.dollar 1,
        Tok.str " = ", Tok.dollar 2],
       [Arg.val (Lit.int 1), Arg.val (Lit.int 2)]) := by
    simp [qLits, UpdateQuery.appendSQL, appendSQLAux, appendCTEs, clausesCore,
      clausesTail, appendUpdateClause, andThen, questionToDollarToks,
      predicatesAppendAnd, predicateAppendSQLExclude, appendSQLValue]
  exact ⟨rfl, h, (args_match_placeholders qLits _ _ rfl h).1.1⟩

/-- C5: nestThis returns a copy with the nested flag set and every other
field unchanged; rendering the nested copy is exactly the bare clause
rendering — it starts at the UPDATE clause with no WITH prefix and leaves
every placeholder marker neutral (no rewrite) — while rendering with nested
unset performs the placeholder rewrite (no neutral marker survives) and puts
the WITH prefix first whenever there are CTEs. -/
theorem nestThis_defers (q : UpdateQuery) (buf : List Tok) (args : List Arg) :
    ((q.nestThis).nested = true ∧ (q.nestThis).ctes = q.ctes ∧
     (q.nestThis).updateTable = q.updateTable ∧
     (q.nestThis).assignments = q.assignments ∧
     (q.nestThis).columnMapper = q.columnMapper ∧
     (q.nestThis).fromTable = q.fromTable ∧
     (q.nestThis).joinTables = q.joinTables ∧
     (q.nestThis).wherePredicates = q.wherePredicates ∧
     (q.nestThis).returningFields = q.returningFields) ∧
    (q.nestThis).appendSQL buf args = appendSQLBody q buf args ∧
    (∀ b a, appendSQLBody q buf args = Except.ok (b, a) →
       (∃ rest, b = buf ++ (Tok.str "UPDATE " :: rest)) ∧
       noDollars b = noDollars buf) ∧
    (q.nested = false → ∀ b a, q.appendSQL buf args = Except.ok (b, a) →
       qcount b = 0) ∧
    (q.nested = false → ∀ c cs2, q.ctes = c :: cs2 → ∀ b a,
       q.appendSQL [] [] = Except.ok (b, a) → ∃ rest, b = Tok.str "WITH " :: rest) := by
  cases q with
  | mk n cs ut asgs cm ft jt wh rt =>
    refine ⟨⟨rfl, rfl, rfl, rfl, rfl, rfl, rfl, rfl, rfl⟩, ?_, ?_, ?_, ?_⟩
    · cases cm with
      | none =>
        simp only [UpdateQuery.nestThis, UpdateQuery.appendSQL, appendSQLBody,
          appendSQLAux_true]
      | some m =>
        cases m with
        | panics p =>
          simp only [UpdateQuery.nestThis, UpdateQuery.appendSQL, appendSQLBody]
        | returns asgs2 =>
          simp only [UpdateQuery.nestThis, UpdateQuery.appendSQL, appendSQLBody,
            appendSQLAux_true]
    · intro b a h
      refine ⟨appendSQLBody_head _ buf args b a h, ?_⟩
      obtain ⟨d, e, hb, ha, hq, hnd⟩ := emitted_body _ buf args b a h
      rw [hb, noDollars_append, hnd, Bool.and_true]
    · intro hn b a h
      simp only [UpdateQuery.nested] at hn
      subst hn
      cases cm with
      | some m =>
        cases m with
        | panics p => simp only [UpdateQuery.appendSQL] at h; exact absurd h (by simp)
        | returns asgs2 =>
          simp only [UpdateQuery.appendSQL] at h
          obtain ⟨b1, a1, b2, h1, h2, hb⟩ :=
            appendSQLAux_false_parts cs ut asgs2 ft jt wh rt buf args b a h
          rw [hb]
          exact qcount_qtd b2 0
      | none =>
        simp only [UpdateQuery.appendSQL] at h
        obtain ⟨b1, a1, b2, h1, h2, hb⟩ :=
          appendSQLAux_false_parts cs ut asgs ft jt wh rt buf args b a h
        rw [hb]
        exact qcount_qtd b2 0
    · intro hn c cs2 hcs b a h
      simp only [UpdateQuery.nested] at hn
      subst hn
      simp only [UpdateQuery.ctes] at hcs
      subst hcs
      have main : ∀ (asgsR : List Assignment),
          appendSQLAux false (c :: cs2) ut asgsR ft jt wh rt [] [] = Except.ok (b, a) →
          ∃ rest, b = Tok.str "WITH " :: rest := by
        intro asgsR hx
        obtain ⟨b1, a1, b2, h1, h2, hb⟩ :=
          appendSQLAux_false_parts (c :: cs2) ut asgsR ft jt wh rt [] [] b a hx
        simp only [appendCTEs] at h1
        obtain ⟨bb, aa, hx1, hx2⟩ := andThen_ok_elim _ _ _ _ h1
        obtain ⟨dc, ec, hbc, hac, hqc, hdc⟩ :=
          emitted_ctesList (c :: cs2) true ([] ++ [Tok.str "WITH "]) [] bb aa hx1
        simp only [Except.ok.injEq, Prod.mk.injEq] at hx2
        obtain ⟨d2, e2, hb2, ha2, hq2, hd2⟩ :=
          emitted_clausesCore ut asgsR ft jt wh rt b1 a1 b2 a h2
        have hb1x : b1 = Tok.str "WITH " :: (dc ++ [Tok.str " "]) := by
          rw [← hx2.1, hbc]
          simp
        have hb2x : b2 = Tok.str "WITH " :: (dc ++ [Tok.str " "] ++ d2) := by
          rw [hb2, hb1x]
          simp
        rw [hb, hb2x, qtd_str_cons]
        exact ⟨questionToDollarToks (dc ++ [Tok.str " "] ++ d2) 0, rfl⟩
      cases cm with
      | some m =>
        cases m with
        | panics p => simp only [UpdateQuery.appendSQL] at h; exact absurd h (by simp)
        | returns asgs2 =>
          simp only [UpdateQuery.appendSQL] at h
          exact main asgs2 h
      | none =>
        simp only [UpdateQuery.appendSQL] at h
        exact main asgs h

theorem nestThis_defers_witness :
    qCte.nested = false ∧ qCte.ctes = CTE.mk "c0" qInner :: [] ∧
    (qCte.nestThis).appendSQL [] [] = appendSQLBody qCte [] [] ∧
    qCte.appendSQL [] [] = Except.ok
      ([Tok.str "WITH ", Tok.str "c0", Tok.str " AS (", Tok.str "UPDATE ",
        Tok.str "NULL", Tok.str ")", Tok.str " ", Tok.str "UPDATE ",
        Tok.str "NULL"], []) ∧
    (∃ rest,
      ([Tok.str "WITH ", Tok.str "c0", Tok.str " AS (", Tok.str "UPDATE ",
        Tok.str "NULL", Tok.str ")", Tok.str " ", Tok.str "UPDATE ",
        Tok.str "NULL"] : List Tok) = Tok.str "WITH " :: rest) := by
  have h : qCte.appendSQL [] [] = Except.ok
      ([Tok.str "WITH ", Tok.str "c0", Tok.str " AS (", Tok.str "UPDATE ",
        Tok.str "NULL", Tok.str ")", Tok.str " ", Tok.str "UPDATE ",
        Tok.str "NULL"], []) := by
    simp [qCte, qInner, UpdateQuery.appendSQL, appendSQLAux, appendCTEs,
      ctesAppendList, cteAppendSQL, appendSQLBody, clausesCore, clausesTail,
      appendUpdateClause, andThen, questionToDollarToks]
  refine ⟨rfl, rfl, (nestThis_defers qCte [] []).2.1, h, ?_⟩
  exact (nestThis_defers qCte [] []).2.2.2.2 rfl (CTE.mk "c0" qInner) [] rfl _ _ h

/-- C6: a column-mapper callback that raises during the discovery invocation
inside ToSQL is caught: ToSQL returns the empty query text and an argument
list whose single element is the raised value. -/
theorem tosql_recovers_mapper_panic (q : UpdateQuery) (p : GoPanic)
    (h : q.columnMapper = some (ColMapper.panics p)) :
    q.toSQL = ([], [Arg.raised p]) := by
  cases q with
  | mk n cs ut asgs cm ft jt wh rt =>
    simp only [UpdateQuery.columnMapper] at h
    subst h
    simp [UpdateQuery.toSQL, UpdateQuery.appendSQL]

theorem tosql_recovers_mapper_panic_witness :
    qPanic.columnMapper = some (ColMapper.panics (GoPanic.err "email cannot be empty")) ∧
    qPanic.toSQL = ([], [Arg.raised (GoPanic.err "email cannot be empty")]) :=
  ⟨rfl, tosql_recovers_mapper_panic qPanic (GoPanic.err "email cannot be empty") rfl⟩

/-- C7: with a non-nil update table the UPDATE clause adds exactly one
qualifier to the exclusion set — the alias when there is one, otherwise the
table name — and a column field rendered under that singleton exclusion set
drops its qualifier exactly when its qualifier is the excluded one, keeping
the qualified form otherwise. -/
theorem set_exclusion_single (t : BaseTable) (buf : List Tok) :
    (appendUpdateClause (some t) buf).2 = [if t.als = "" then t.name else t.als] ∧
    (∀ tbl nm als (b : List Tok) (args : List Arg), tbl ≠ "" →
      fieldAppendSQLExclude [if t.als = "" then t.name else t.als]
        (Field.col tbl nm als) b args =
        Except.ok (b ++ [Tok.str (if tbl = (if t.als = "" then t.name else t.als)
          then nm else tbl ++ "." ++ nm)], args)) := by
  constructor
  · by_cases h : t.als = "" <;> simp [appendUpdateClause, h]
  · intro tbl nm als b args hne
    by_cases hx : tbl = (if t.als = "" then t.name else t.als)
    · simp [fieldAppendSQLExclude, List.contains_cons, hx]
    · simp [fieldAppendSQLExclude, List.contains_cons, hx, hne]

theorem set_exclusion_single_witness :
    (appendUpdateClause (some tUsers) []).2 =
      [if tUsers.als = "" then tUsers.name else tUsers.als] ∧
    ("u" : String) ≠ "" ∧
    fieldAppendSQLExclude [if tUsers.als = "" then tUsers.name else tUsers.als]
      (Field.col "u" "id" "") [] [] =
      Except.ok ([Tok.str (if ("u" : String) =
        (if tUsers.als = "" then tUsers.name else tUsers.als)
        then "id" else "u" ++ "." ++ "id")], []) :=
  ⟨(set_exclusion_single tUsers []).1, by decide,
   (set_exclusion_single tUsers []).2 "u" "id" "" [] [] (by decide)⟩

/-- C8: rendering never fails at build time — a nil update table renders as
the literal NULL token after the UPDATE keyword, a nil entry in a field list
renders as the literal NULL token, a join table with a nil table renders as
JOIN NULL, and ToSQL returns a result for every query value. -/
theorem permissive_null_rendering :
    (∀ (asgs : List Assignment) (ft : Option Table) (jt : List JoinTable)
       (wh : List Predicate) (rt : List (Option Field)) (b : List Tok) (a : List Arg),
       (UpdateQuery.mk false [] none asgs none ft jt wh rt).appendSQL [] [] =
         Except.ok (b, a) →
       ∃ rest, b = Tok.str "UPDATE " :: Tok.str "NULL" :: rest) ∧
    (∀ excl (buf : List Tok) (args : List Arg),
       fieldsAppendSQLExclude excl [none] true buf args =
         Except.ok (buf ++ [Tok.str "NULL"], args)) ∧
    (∀ (buf : List Tok) (args : List Arg),
       joinTableAppendSQL (JoinTable.mk "" none []) buf args =
         Except.ok (buf ++ [Tok.str "JOIN", Tok.str " ", Tok.str "NULL"], args)) ∧
    (∀ q : UpdateQuery, ∃ b a, q.toSQL = (b, a)) := by
  refine ⟨?_, ?_, ?_, fun q => ⟨q.toSQL.1, q.toSQL.2, rfl⟩⟩
  · intro asgs ft jt wh rt b a h
    simp only [UpdateQuery.appendSQL] at h
    obtain ⟨b1, a1, b2, h1, h2, hb⟩ :=
      appendSQLAux_false_parts [] none asgs ft jt wh rt [] [] b a h
    simp only [appendCTEs, Except.ok.injEq, Prod.mk.injEq] at h1
    obtain ⟨rest, hrest⟩ := clausesCore_head none asgs ft jt wh rt b1 a1 b2 a h2
    have hup : (appendUpdateClause none b1).1 = b1 ++ [Tok.str "UPDATE ", Tok.str "NULL"] := by
      simp [appendUpdateClause]
    rw [hup, ← h1.1] at hrest
    rw [hb, hrest]
    simp only [List.nil_append, List.cons_append, questionToDollarToks]
    exact ⟨questionToDollarToks rest 0, rfl⟩
  · intro excl buf args
    simp [fieldsAppendSQLExclude]
  · intro buf args
    simp [joinTableAppendSQL, andThen]

theorem permissive_null_rendering_witness :
    qEmpty.appendSQL [] [] = Except.ok ([Tok.str "UPDATE ", Tok.str "NULL"], []) ∧
    (∃ rest, ([Tok.str "UPDATE ", Tok.str "NULL"] : List Tok) =
      Tok.str "UPDATE " :: Tok.str "NULL" :: rest) := by
  have h : qEmpty.appendSQL [] [] =
      Except.ok ([Tok.str "UPDATE ", Tok.str "NULL"], []) := by
    simp [qEmpty, UpdateQuery.appendSQL, appendSQLAux, appendCTEs, clausesCore,
      clausesTail, appendUpdateClause, andThen, questionToDollarToks]
  exact ⟨h, permissive_null_rendering.1 [] none [] [] [] _ _ h⟩

/-- C9 counterexample: the claim quantifies over every built statement value,
and the Go ColumnMapper field holds a callback that AppendSQL re-invokes on
every rendering (src/unnamed/part_000 lines 60-64); for the statement
carrying the stateful closure smFlip — a legal callback value, and the
statement unmodified between the calls — the discovery invocation registers
different assignments on the first and on the second call, so the two
successive ToSQL calls return different SQL text. -/
theorem tosql_stateful_counterexample : c9run1.2 ≠ c9run2.2 := by
  have h1 : c9run1 =
      (true, ([Tok.str "UPDATE ", Tok.str "NULL", Tok.str " SET ", Tok.str "a",
        Tok.str " = ", Tok.str "b"], [])) := by
    simp [c9run1, toSQLStateful, stateAfter, mapEffect, smFlip, qPlain, asgA,
      UpdateQuery.withMapper, UpdateQuery.toSQL, UpdateQuery.appendSQL,
      appendSQLAux, appendCTEs, clausesCore, clausesTail, appendUpdateClause,
      assignmentsAppendSQLExclude, assignmentAppendSQLExclude,
      fieldAppendSQLExclude, appendSQLValue, andThen, questionToDollarToks]
  have h2 : c9run2 =
      (true, ([Tok.str "UPDATE ", Tok.str "NULL", Tok.str " SET ", Tok.str "c",
        Tok.str " = ", Tok.str "b"], [])) := by
    simp [c9run2, h1, toSQLStateful, stateAfter, mapEffect, smFlip, qPlain, asgC,
      UpdateQuery.withMapper, UpdateQuery.toSQL, UpdateQuery.appendSQL,
      appendSQLAux, appendCTEs, clausesCore, clausesTail, appendUpdateClause,
      assignmentsAppendSQLExclude, assignmentAppendSQLExclude,
      fieldAppendSQLExclude, appendSQLValue, andThen, questionToDollarToks]
  rw [h1, h2]
  decide

/-- C9 (amended): for every built statement value whose column-mapper
discovery invocation has the same observable effect at the second call as at
the first — in particular every statement without a column mapper, and every
mapper whose registered assignments do not depend on its captured state —
calling ToSQL twice on the same unmodified value produces byte-identical
text and an element-wise identical argument list: apart from that one
callback, rendering is a pure function of the statement value, mirroring
that ToSQL takes its receiver by value and allocates a fresh buffer and a
fresh argument slice on every call (src/unnamed/part_000 lines 42-52). -/
theorem tosql_idempotent_of_stable_mapper {σ : Type} (q : UpdateQuery)
    (m : Option (StatefulMapper σ)) (s : σ)
    (hstable : mapEffect m (stateAfter m s) = mapEffect m s) :
    ((toSQLStateful q m (toSQLStateful q m s).1).2).1 =
      ((toSQLStateful q m s).2).1 ∧
    ((toSQLStateful q m (toSQLStateful q m s).1).2).2 =
      ((toSQLStateful q m s).2).2 := by
  simp only [toSQLStateful]
  rw [hstable]
  exact ⟨rfl, rfl⟩

theorem tosql_idempotent_of_stable_mapper_witness :
    mapEffect (some smSpin) (stateAfter (some smSpin) false) =
      mapEffect (some smSpin) false ∧
    (((toSQLStateful qPlain (some smSpin)
          (toSQLStateful qPlain (some smSpin) false).1).2).1 =
        ((toSQLStateful qPlain (some smSpin) false).2).1 ∧
      ((toSQLStateful qPlain (some smSpin)
          (toSQLStateful qPlain (some smSpin) false).1).2).2 =
        ((toSQLStateful qPlain (some smSpin) false).2).2) :=
  ⟨rfl, tosql_idempotent_of_stable_mapper qPlain (some smSpin) false rfl⟩

end SQ
